import Mathlib

/-!
Shallow embedding of the docker-slim container inspection / minification
pipeline core, for checking the natural-language specification against the
code.  The embedded sources are:

* `src/internal/app/master/inspectors/container/probes/http/custom_probe.go`
  (port planner `NewCustomProbe`, probe engine `Start`),
* `src/internal/app/master/commands/build.go` (`OnBuild`),
* `src/unnamed/part_000` (`OnProfile`).

Conventions of the embedding:

* Go maps (`NetworkSettings.Ports`, the `availablePorts` set) are modelled as
  association lists / lists with set-insertion; Go map iteration order is
  unspecified, so order-sensitive statements are made only where the source's
  order is deterministic (the exposed-ports loop).
* A Go panic (indexing `[0]` of an empty binding list, dereferencing the nil
  request after an ignored `http.NewRequest` error, `errutil.Fail`) is
  modelled by an `Option`-valued function returning `none`.
* `fmt.Printf`/`fmt.Println` calls become `out` events carrying the source's
  format string verbatim (interpolated values are left as `%v` placeholders,
  except where the argument is itself a modelled string).
-/

namespace DockerSlim

/-! ## Port planner: `NewCustomProbe` (custom_probe.go lines 39-115) -/

/-- The slice of `container.Inspector` data that `NewCustomProbe` consults:
`ContainerInfo.NetworkSettings.Ports` (container port spec, e.g. "8080/tcp",
mapped to the list of host-port bindings), the two reserved control ports
`CmdPort`/`EvtPort`, and `ImageInspector.DockerfileInfo.ExposedPorts` in
declaration order. -/
structure Inspector where
  ports : List (String × List String)
  cmdPort : String
  evtPort : String
  exposedPorts : List String
deriving DecidableEq, Repr

/-- custom_probe.go lines 61-68: the `availablePorts` set — for every entry of
the port map whose key is neither `CmdPort` nor `EvtPort`, the host port of
its first binding (`nsPortData[0].HostPort`; an empty binding list panics,
modelled as `none`).  Go's `map[string]struct{}` keeps one copy of each host
port; insertion order is this list's order (Go's is unspecified). -/
def availablePortsList : List (String × List String) → String → String →
    Option (List String)
  | [], _, _ => some []
  | (k, bs) :: rest, c, e =>
    if k = c ∨ k = e then availablePortsList rest c e
    else
      match bs.head? with
      | none => none
      | some h =>
        match availablePortsList rest c e with
        | none => none
        | some l => some (if h ∈ l then l else h :: l)

/-- custom_probe.go line 74: the port spec looked up for a numeric target
port, `fmt.Sprintf("%v/tcp", pnum)`. -/
def targetSpec (pnum : Nat) : String := toString pnum ++ "/tcp"

/-- custom_probe.go lines 72-81: the `TargetPorts` branch — for each target
port, if its `/tcp` spec is bound, append the host port of its first binding
(empty binding list panics ⇒ `none`); unbound targets are skipped. -/
def targetPlan (ports : List (String × List String)) :
    List Nat → Option (List String)
  | [] => some []
  | p :: ps =>
    match ports.lookup (targetSpec p) with
    | none => targetPlan ports ps
    | some bs =>
      match bs.head? with
      | none => none
      | some h =>
        match targetPlan ports ps with
        | none => none
        | some rest => some (h :: rest)

/-- custom_probe.go lines 87-89: an exposed-port entry lacking a "/proto"
suffix is normalized by appending "/tcp". -/
def normalizePort (s : String) : String :=
  if s.data.contains (Char.ofNat 47) then s else s ++ "/tcp"

/-- custom_probe.go lines 85-104: the exposed-ports loop, already iterating
the reversed declaration list.  Returns the plan segment built from bound
exposed ports together with what is left of the available set after the
`delete` calls.  A bound entry with an empty binding list panics ⇒ `none`. -/
def exposedLoop (ports : List (String × List String)) :
    List String → List String → Option (List String × List String)
  | [], avail => some ([], avail)
  | ep :: rest, avail =>
    match ports.lookup (normalizePort ep) with
    | none => exposedLoop ports rest avail
    | some bs =>
      match bs.head? with
      | none => none
      | some h =>
        match exposedLoop ports rest (avail.erase h) with
        | none => none
        | some (pl, av) => some (h :: pl, av)

/-- custom_probe.go lines 61-114: the port plan (`probe.Ports`) computed by
`NewCustomProbe`.  The `availablePorts` set is built before the branch on
`TargetPorts` (so its panics happen in both branches); with a non-empty
target list the plan is `targetPlan`; otherwise the reversed exposed-ports
prefix followed by the remaining available host ports. -/
def newCustomProbePorts (ins : Inspector) (targetPorts : List Nat) :
    Option (List String) :=
  match availablePortsList ins.ports ins.cmdPort ins.evtPort with
  | none => none
  | some avail =>
    if targetPorts ≠ [] then
      targetPlan ins.ports targetPorts
    else
      match exposedLoop ins.ports ins.exposedPorts.reverse avail with
      | none => none
      | some (pl, av) => some (pl ++ av)

/-- custom_probe.go line 114: `NewCustomProbe`'s single return site is
`return probe, nil` — the `error` result (second component, `Option String`)
is always `none` (Go `nil`). -/
def newCustomProbe (ins : Inspector) (targetPorts : List Nat) :
    Option (List String × Option String) :=
  match newCustomProbePorts ins targetPorts with
  | none => none
  | some pl => some (pl, none)

/-! ## Probe engine: `CustomProbe.Start` (custom_probe.go lines 118-273)

The worker goroutine is embedded as a sequential trace-producing function.
The outcome of each HTTP call (`httpClient.Do`) is supplied by an oracle
`resp : portIdx → cmdIdx → protoIdx → attemptIdx → CallResult`; per the
`net/http` client contract a `nil` transport error comes with a non-nil
response carrying a non-nil body, and a non-nil error with a nil response. -/

/-- One HTTP request template (`config.HTTPProbeCmd`), as consumed by
`Start`: method, resource path, protocol (`""` ⇒ try both http and https),
raw header lines, body, basic-auth credentials. -/
structure ProbeCmd where
  method : String
  resource : String
  protocol : String
  headers : List String
  body : String
  username : String
  password : String
deriving DecidableEq, Repr

/-- Error classes of custom_probe.go lines 234-246: a `*url.Error` whose
inner cause is `io.EOF` (target not ready), any other `*url.Error` (web
error), and any other error. -/
inductive ErrClass
  | notReady
  | web
  | other
deriving DecidableEq, Repr

/-- Outcome of one `httpClient.Do` call: success with a status code (non-nil
response, non-nil body, nil error) or a transport error of some class (nil
response). -/
inductive CallResult
  | ok (status : Nat)
  | fail (e : ErrClass)
deriving DecidableEq, Repr

/-- The `CustomProbe` fields `Start` reads: print prefix and flag, the port
plan (`Ports`), the commands, retry count/wait, and `ProbeFull`.  Go's
`RetryCount`/`RetryWait` are `int` guarded by `> 0`, so non-positive values
behave as 0; they are embedded as `Nat`. -/
structure ProbeConfig where
  pfx : String
  printState : Bool
  ports : List String
  cmds : List ProbeCmd
  retryCount : Nat
  retryWait : Nat
  probeFull : Bool

/-- custom_probe.go lines 182-186: `strings.SplitN(hline, ":", 2)`; a line
without a colon is skipped, otherwise name and value are trimmed. -/
def parseHeader (hline : String) : Option (String × String) :=
  match hline.splitOn ":" with
  | [] => none
  | [_] => none
  | a :: rest => some (a.trim, (String.intercalate ":" rest).trim)

/-- custom_probe.go lines 181-191: the headers added to the request (the
oracle abstracts the HTTP exchange, so these do not feed the trace). -/
def requestHeaders (cmd : ProbeCmd) : List (String × String) :=
  cmd.headers.filterMap parseHeader

/-- custom_probe.go line 193: basic auth is applied when either credential
is non-empty. -/
def usesBasicAuth (cmd : ProbeCmd) : Bool :=
  cmd.username != "" || cmd.password != ""

/-- `net/http`'s token-character table (RFC 7230 `tchar`): the characters an
HTTP method may contain. -/
def tokenChar (c : Char) : Bool :=
  c.isAlphanum || "!#$%&'*+-.^_`|~".data.contains c

/-- `http.NewRequest` accepts a method iff all its characters are token
characters (the empty method is replaced by GET, hence valid).  The embedding
assumes the composed URL parses, so this is the only `NewRequest` failure
mode in scope. -/
def validMethod (m : String) : Bool :=
  m.toList.all tokenChar

/-- custom_probe.go lines 165-168: the retry budget — `RetryCount` when
positive, else the constant `probeRetryCount = 5` (line 21). -/
def maxRetryOf (cfg : ProbeConfig) : Nat :=
  if 0 < cfg.retryCount then cfg.retryCount else 5

/-- custom_probe.go lines 155-160: the protocols tried for a command —
both `http` and `https` when the command specifies none. -/
def protocolsOf (cmd : ProbeCmd) : List String :=
  if cmd.protocol = "" then ["http", "https"] else [cmd.protocol]

/-- custom_probe.go lines 170-177 with 237/240/245: the backoff wait (in
seconds) slept after a failed attempt of the given class.  Defaults 16/8/4;
with a positive `RetryWait = R`: not-ready `2R`, web `R`, other `R/2`
(integer division). -/
def waitFor (rw : Nat) (e : ErrClass) : Nat :=
  if 0 < rw then
    match e with
    | .notReady => rw * 2
    | .web => rw
    | .other => rw / 2
  else
    match e with
    | .notReady => 16
    | .web => 8
    | .other => 4

/-- Events of the probe worker trace.  `n` is the call serial number (the
value of `callCount` when the call is issued); `pi`/`ci` are the port and
command indices in the plan; `attempt` is the 0-based retry index. -/
inductive PEvent
  | out (line : String)
  | sleep (secs : Nat)
  | request (n pi ci : Nat) (proto : String) (attempt : Nat)
  | rewind (n : Nat)
  | drain (n : Nat)
  | close (n : Nat)
  | doneClosed
deriving DecidableEq, Repr

/-- The worker's three counters (custom_probe.go lines 142-144). -/
structure PCnt where
  calls : Nat
  oks : Nat
  errs : Nat
deriving DecidableEq, Repr

/-- A print gated by `PrintState`. -/
def outIf (b : Bool) (s : String) : List PEvent :=
  if b then [PEvent.out s] else []

/-- The per-attempt log line's format string (custom_probe.go line 218),
without the prefix. -/
def callLine : String :=
  "info=http.probe.call status=%v method=%v target=%v attempt=%v %v time=%v"

/-- custom_probe.go lines 179-249: the retry loop for one (port, command,
protocol) triple, from attempt `i` with `fuel` attempts left, threading the
counters.  Returns the updated counters, the emitted events, and the serial
numbers whose `res.Body.Close()` was deferred (in registration order).  An
invalid method makes `http.NewRequest` return a nil request and an error
that line 197 overwrites unchecked; the nil request is then dereferenced —
a panic, embedded as `none`. -/
def runAttempts (cfg : ProbeConfig) (resp : Nat → Nat → Nat → Nat → CallResult)
    (cmd : ProbeCmd) (pi ci pri : Nat) (proto : String) :
    Nat → Nat → PCnt → Option (PCnt × List PEvent × List Nat)
  | 0, _, cnt => some (cnt, [], [])
  | fuel + 1, i, cnt =>
    if validMethod cmd.method then
      let n := cnt.calls
      let cnt1 : PCnt := { cnt with calls := cnt.calls + 1 }
      match resp pi ci pri i with
      | .ok _status =>
        some ({ cnt1 with oks := cnt1.oks + 1 },
          [PEvent.request n pi ci proto i, PEvent.rewind n, PEvent.drain n] ++
            outIf cfg.printState (cfg.pfx ++ " " ++ callLine),
          [n])
      | .fail e =>
        match runAttempts cfg resp cmd pi ci pri proto fuel (i + 1)
            { cnt1 with errs := cnt1.errs + 1 } with
        | none => none
        | some (cnt2, evs, dfs) =>
          some (cnt2,
            [PEvent.request n pi ci proto i, PEvent.rewind n] ++
              outIf cfg.printState (cfg.pfx ++ " " ++ callLine) ++
              [PEvent.sleep (waitFor cfg.retryWait e)] ++ evs,
            dfs)
    else none

/-- custom_probe.go lines 162-250: the protocol loop of one command. -/
def runProtos (cfg : ProbeConfig) (resp : Nat → Nat → Nat → Nat → CallResult)
    (cmd : ProbeCmd) (pi ci : Nat) :
    List String → Nat → PCnt → Option (PCnt × List PEvent × List Nat)
  | [], _, cnt => some (cnt, [], [])
  | proto :: rest, pri, cnt =>
    match runAttempts cfg resp cmd pi ci pri proto (maxRetryOf cfg) 0 cnt with
    | none => none
    | some (c1, e1, d1) =>
      match runProtos cfg resp cmd pi ci rest (pri + 1) c1 with
      | none => none
      | some (c2, e2, d2) => some (c2, e1 ++ e2, d1 ++ d2)

/-- custom_probe.go lines 152-251: the command loop of one port (no
success-based break at this level). -/
def runCmds (cfg : ProbeConfig) (resp : Nat → Nat → Nat → Nat → CallResult)
    (pi : Nat) :
    List ProbeCmd → Nat → PCnt → Option (PCnt × List PEvent × List Nat)
  | [], _, cnt => some (cnt, [], [])
  | cmd :: rest, ci, cnt =>
    match runProtos cfg resp cmd pi ci (protocolsOf cmd) 0 cnt with
    | none => none
    | some (c1, e1, d1) =>
      match runCmds cfg resp pi rest (ci + 1) c1 with
      | none => none
      | some (c2, e2, d2) => some (c2, e1 ++ e2, d1 ++ d2)

/-- custom_probe.go lines 146-252: the port loop, with the top-of-iteration
break `okCount > 0 && !p.ProbeFull` (lines 148-150). -/
def runPortsAux (cfg : ProbeConfig) (resp : Nat → Nat → Nat → Nat → CallResult) :
    List String → Nat → PCnt → Option (PCnt × List PEvent × List Nat)
  | [], _, cnt => some (cnt, [], [])
  | _port :: rest, pi, cnt =>
    if 0 < cnt.oks ∧ cfg.probeFull = false then some (cnt, [], [])
    else
      match runCmds cfg resp pi cfg.cmds 0 cnt with
      | none => none
      | some (c1, e1, d1) =>
        match runPortsAux cfg resp rest (pi + 1) c1 with
        | none => none
        | some (c2, e2, d2) => some (c2, e1 ++ e2, d1 ++ d2)

/-- custom_probe.go lines 260-266: the terminal warning. -/
def warningOf (cnt : PCnt) : String :=
  if cnt.calls = 0 then "warning=no.calls"
  else if cnt.oks = 0 then "warning=no.successful.calls"
  else ""

/-- custom_probe.go lines 118-273: the whole probe run — `Start`'s
synchronous print, then the worker: warm-up sleep of 9 seconds, running
line, the port loop, summary and done lines, the `doneChan` close, and only
then the deferred `res.Body.Close()` calls in LIFO order (a `defer` in the
loop runs at goroutine exit, after `close(p.doneChan)`). -/
def runEngine (cfg : ProbeConfig) (resp : Nat → Nat → Nat → Nat → CallResult) :
    Option (PCnt × List PEvent) :=
  match runPortsAux cfg resp cfg.ports 0 ⟨0, 0, 0⟩ with
  | none => none
  | some (cnt, evs, dfs) =>
    some (cnt,
      outIf cfg.printState
        (cfg.pfx ++ " state=http.probe.starting message='WAIT FOR HTTP PROBE TO FINISH'") ++
      [PEvent.sleep 9] ++
      outIf cfg.printState (cfg.pfx ++ " state=http.probe.running") ++
      evs ++
      outIf cfg.printState
        (cfg.pfx ++ " info=http.probe.summary total=%v failures=%v successful=%v") ++
      outIf cfg.printState (cfg.pfx ++ " state=http.probe.done " ++ warningOf cnt) ++
      [PEvent.doneClosed] ++ dfs.reverse.map PEvent.close)

/-! ## Orchestrators: `OnBuild` (build.go) and `OnProfile` (part_000)

The orchestration control flow over the collaborators.  Collaborator calls
whose failure `errutil.FailOn` would turn into process death are assumed to
succeed; the boolean- and data-observable outcomes the control flow branches
on live in the environment records below.  `fmt.Print*` calls become `out`
events (format strings verbatim, `%v`/`%s` placeholders kept); `logger.*`
calls go to the logging backend, not stdout, and are not events. -/

/-- The command report's state tag (`report.CmdState*`; the report package is
outside `src/`, only the tag identities matter here). -/
inductive CmdState
  | started
  | completed
  | error
  | done
deriving DecidableEq, Repr

/-- Events of an orchestration run. -/
inductive OEvent
  | out (line : String)
  | exitProc (code : Int)
  | finishMonitoring
  | shutdownContainer
  | probeStarted
  | saveReport (state : CmdState)
  | versionJoin
  | fatal
deriving DecidableEq, Repr

/-- build.go lines 84-95: a non-empty custom tag is malformed when splitting
on ":" yields more than two parts. -/
def buildTagOk (customImageTag : String) : Bool :=
  (customImageTag.splitOn ":").length ≤ 2

/-- build.go lines 250-269 / part_000 lines 162-181: the continue-after
switch.  Yields the prompt/event lines of the chosen mode; `none` is the
`default` branch (`errutil.Fail "unknown continue-after mode"`). -/
def modePrompt (pfx : String) : String → Option (List OEvent)
  | "enter" => some
      [OEvent.out (pfx ++ " info=prompt message='USER INPUT REQUIRED, PRESS <ENTER> WHEN YOU ARE DONE USING THE CONTAINER'")]
  | "signal" => some
      [OEvent.out (pfx ++ " info=prompt message='send SIGUSR1 when you are done using the container'"),
       OEvent.out (pfx ++ " info=event message='got SIGUSR1'")]
  | "timeout" => some
      [OEvent.out (pfx ++ " info=prompt message='waiting for the target container (%v seconds)'"),
       OEvent.out (pfx ++ " info=event message='done waiting for the target container'")]
  | "probe" => some
      [OEvent.out (pfx ++ " info=prompt message='waiting for the HTTP probe to finish'"),
       OEvent.out (pfx ++ " info=event message='HTTP probe is done'")]
  | _ => none

/-- The environment of one `OnBuild` invocation: its string/flag arguments
and the observable outcomes of its collaborators. -/
structure BuildEnv where
  buildFromDockerfile : String
  customImageTag : String
  doShowBuildLogs : Bool
  basicBuildLog : String
  buildLog : String
  networkOk : Bool
  noImage : Bool
  imageRef : String
  dockerfileInfoPresent : Bool
  exeUser : String
  imageStack : List String
  doHTTPProbe : Bool
  continueMode : String
  inspector : Inspector
  probePorts : List Nat
  hasCollectedData : Bool
  newImageFound : Bool
  newInspectOk : Bool
  copyLoc : String
  copyOk : Bool
  doRmFileArtifacts : Bool

/-- build.go lines 169-189: the `DockerfileInfo` report lines (users, image
stack, exposed ports). -/
def dockerfileInfoLines (env : BuildEnv) : List OEvent :=
  if env.dockerfileInfoPresent then
    (if env.exeUser ≠ "" then
      [OEvent.out "docker-slim[build]: info=image.users exe='%v' all='%v'"] else []) ++
    (env.imageStack.map fun _ =>
      OEvent.out "docker-slim[build]: info=image.stack index=%v name='%v' id='%v'") ++
    (if env.inspector.exposedPorts ≠ [] then
      [OEvent.out "docker-slim[build]: info=image.exposed_ports list='%v'"] else [])
  else []

/-- build.go lines 250-444: `OnBuild` from the continue-after gate to the
end — gate prompts, finish monitoring, shutdown, the no-data early exit, the
minified build, the minified-image re-inspection, result lines, meta-artifact
copy, and the final `state=done` / version join / report save (lines
437-443: `cmdReport.State = report.CmdStateDone; cmdReport.Save()`). -/
def onBuildFromGate (env : BuildEnv) (t : List OEvent) : Option (List OEvent) :=
  match modePrompt "docker-slim[build]:" env.continueMode with
  | none => some (t ++ [OEvent.fatal])
  | some prompts =>
    let t3 := t ++ prompts ++
      [OEvent.out "docker-slim[build]: state=container.inspection.finishing",
       OEvent.finishMonitoring,
       OEvent.shutdownContainer,
       OEvent.out "docker-slim[build]: state=container.inspection.artifact.processing"]
    if ¬ env.hasCollectedData then
      -- lines 281-287 (ShowFatImageDockerInstructions prints outside the core)
      some (t3 ++
        [OEvent.out "docker-slim[build]: info=results status='no data collected (no minified image generated). (version: %v)'",
         OEvent.out "docker-slim[build]: state=exited"])
    else
      let t4 := t3 ++
        [OEvent.out "docker-slim[build]: state=container.inspection.done",
         OEvent.out "docker-slim[build]: state=building message='building minified image'"] ++
        (if env.doShowBuildLogs then
          [OEvent.out "docker-slim[build]: build logs ====================",
           OEvent.out env.buildLog,
           OEvent.out "docker-slim[build]: end of build logs ============="] else []) ++
        [OEvent.out "docker-slim[build]: state=completed"]
      if ¬ env.newImageFound then
        some (t4 ++
          [OEvent.out "docker-slim[build]: info=results message='minified image not found - %s'",
           OEvent.out "docker-slim[build]: state=exited"])
      else
        some (t4 ++
          (if env.newInspectOk then
            [OEvent.out "docker-slim[build]: info=results status='MINIFIED BY %.2fX [%v (%v) => %v (%v)]'"]
           else []) ++  -- else: cmdReport.State = Error (line 375), overwritten at line 442
          [OEvent.out "docker-slim[build]: info=results  image.name=%v image.size='%v' data=%v",
           OEvent.out "docker-slim[build]: info=results  artifacts.location='%v'",
           OEvent.out "docker-slim[build]: info=results  artifacts.report=%v",
           OEvent.out "docker-slim[build]: info=results  artifacts.dockerfile.original=Dockerfile.fat",
           OEvent.out "docker-slim[build]: info=results  artifacts.dockerfile.new=Dockerfile",
           OEvent.out "docker-slim[build]: info=results  artifacts.seccomp=%v",
           OEvent.out "docker-slim[build]: info=results  artifacts.apparmor=%v"] ++
          (if env.copyLoc ≠ "" ∧ ¬ env.copyOk then
            [OEvent.out "docker-slim[build]: info=artifacts message='could not copy meta artifacts'"] else []) ++
          [OEvent.out "docker-slim[build]: state=done",
           OEvent.versionJoin,
           OEvent.saveReport CmdState.done])

/-- build.go lines 30-248: `OnBuild` up to the continue-after gate — params
lines, the dockerfile-based fat-image build with its malformed-tag exit,
the network and image preflight, inspection lines, the container start, and
the probe section (construct the probe; empty plan ⇒ error line, finish
monitoring, shutdown, clean exit; otherwise start the probe). -/
def onBuild (env : BuildEnv) : Option (List OEvent) :=
  let t0 : List OEvent :=
    [OEvent.out "docker-slim[build]: state=started"] ++
    (if env.buildFromDockerfile = "" then
      [OEvent.out "docker-slim[build]: info=params target=%v continue.mode=%v"]
     else
      [OEvent.out "docker-slim[build]: info=params context=%v/file=%v continue.mode=%v"])
  if env.buildFromDockerfile ≠ "" ∧ env.customImageTag ≠ "" ∧
      ¬ buildTagOk env.customImageTag then
    -- lines 91-94: malformed custom tag
    some (t0 ++
      [OEvent.out "docker-slim[build]: state=building message='building basic image'",
       OEvent.out "docker-slim[build]: info=param.error status=malformed.custom.image.tag value=%s",
       OEvent.out "docker-slim[build]: state=exited version=%s",
       OEvent.exitProc (-1)])
  else
    let t1 := t0 ++
      (if env.buildFromDockerfile ≠ "" then
        [OEvent.out "docker-slim[build]: state=building message='building basic image'",
         OEvent.out "docker-slim[build]: info=basic.image.name value=%s"] ++
        (if env.doShowBuildLogs then
          [OEvent.out "docker-slim[build]: build logs (basic image) ====================",
           OEvent.out env.basicBuildLog,
           OEvent.out "docker-slim[build]: end of build logs (basic image) ============="] else []) ++
        [OEvent.out "docker-slim[build]: state=basic.image.build.completed"]
      else [])
    if ¬ env.networkOk then
      -- lines 136-140
      some (t1 ++
        [OEvent.out "docker-slim[build]: info=param.error status=unknown.network value=%s",
         OEvent.out "docker-slim[build]: state=exited version=%s",
         OEvent.exitProc (-111)])
    else if env.noImage then
      -- lines 145-149
      some (t1 ++
        [OEvent.out ("docker-slim[build]: target image not found - " ++ env.imageRef),
         OEvent.out "docker-slim[build]: state=exited"])
    else
      let t2 := t1 ++
        [OEvent.out "docker-slim[build]: state=image.inspection.start",
         OEvent.out "docker-slim[build]: info=image id=%v size.bytes=%v size.human=%v"] ++
        dockerfileInfoLines env ++
        [OEvent.out "docker-slim[build]: state=image.inspection.done",
         OEvent.out "docker-slim[build]: state=container.inspection.start",
         OEvent.out "docker-slim[build]: info=container name=%v id=%v target.port.list=[%v] target.port.info=[%v] message='YOU CAN USE THESE PORTS TO INTERACT WITH THE CONTAINER'"]
      -- lines 227-248: "probe" mode forces doHTTPProbe on
      if env.doHTTPProbe ∨ env.continueMode = "probe" then
        match newCustomProbePorts env.inspector env.probePorts with
        | none => none
        | some [] =>
          some (t2 ++
            [OEvent.out "docker-slim[build]: state=http.probe.error error='no exposed ports' message='expose your service port with --expose or disable HTTP probing with --http-probe=false if your containerized application doesnt expose any network services",
             OEvent.finishMonitoring,
             OEvent.shutdownContainer,
             OEvent.out "docker-slim[build]: state=exited"])
        | some (_ :: _) => onBuildFromGate env (t2 ++ [OEvent.probeStarted])
      else
        onBuildFromGate env t2

/-- The environment of one `OnProfile` invocation (part_000). -/
structure ProfileEnv where
  networkOk : Bool
  noImage : Bool
  imageRef : String
  doHTTPProbe : Bool
  continueMode : String
  inspector : Inspector
  probePorts : List Nat
  hasCollectedData : Bool
  copyLoc : String
  copyOk : Bool

/-- part_000 lines 162-235: `OnProfile` from the continue-after gate to the
end — gate prompts, finish monitoring, shutdown, the no-data early exit,
completion lines, meta-artifact copy (`doRmFileArtifacts` is the constant
`false` of line 62), and `state=done` / version join / report save (lines
228-234). -/
def onProfileFromGate (env : ProfileEnv) (t : List OEvent) : Option (List OEvent) :=
  match modePrompt "docker-slim[profile]:" env.continueMode with
  | none => some (t ++ [OEvent.fatal])
  | some prompts =>
    let t3 := t ++ prompts ++
      [OEvent.out "docker-slim[profile]: state=container.inspection.finishing",
       OEvent.finishMonitoring,
       OEvent.shutdownContainer,
       OEvent.out "docker-slim[profile]: state=container.inspection.artifact.processing"]
    if ¬ env.hasCollectedData then
      some (t3 ++
        [OEvent.out "docker-slim[profile]: info=results status='no data collected (no minified image generated). (version: %v)'",
         OEvent.out "docker-slim[profile]: state=exited"])
    else
      some (t3 ++
        [OEvent.out "docker-slim[profile]: state=container.inspection.done",
         OEvent.out "docker-slim[profile]: state=completed"] ++
        (if env.copyLoc ≠ "" ∧ ¬ env.copyOk then
          [OEvent.out "docker-slim[profile]: info=artifacts message='could not copy meta artifacts'"] else []) ++
        [OEvent.out "docker-slim[profile]: state=done",
         OEvent.versionJoin,
         OEvent.saveReport CmdState.done])

/-- part_000 lines 25-160: `OnProfile` up to the continue-after gate.  Note
line 131: the running-container announcement is printed with the
`docker-slim[build]:` prefix inside the profile command (copied verbatim). -/
def onProfile (env : ProfileEnv) : Option (List OEvent) :=
  let t0 : List OEvent :=
    [OEvent.out "docker-slim[profile]: state=started",
     OEvent.out "docker-slim[profile]: info=params target=%v"]
  if ¬ env.networkOk then
    -- lines 70-74
    some (t0 ++
      [OEvent.out "docker-slim[profile]: info=param.error status=unknown.network value=%s",
       OEvent.out "docker-slim[profile]: state=exited version=%s",
       OEvent.exitProc (-111)])
  else if env.noImage then
    -- lines 79-83
    some (t0 ++
      [OEvent.out ("docker-slim[profile]: target image not found - " ++ env.imageRef),
       OEvent.out "docker-slim[profile]: state=exited"])
  else
    let t2 := t0 ++
      [OEvent.out "docker-slim[profile]: state=image.inspection.start",
       OEvent.out "docker-slim[profile]: info=image id=%v size.bytes=%v size.human=%v",
       OEvent.out "docker-slim[profile]: state=image.inspection.done",
       OEvent.out "docker-slim[profile]: state=container.inspection.start",
       OEvent.out "docker-slim[build]: info=container name=%v id=%v target.port.list=[%v] target.port.info=[%v] message='YOU CAN USE THESE PORTS TO INTERACT WITH THE CONTAINER'"]
    if env.doHTTPProbe ∨ env.continueMode = "probe" then
      match newCustomProbePorts env.inspector env.probePorts with
      | none => none
      | some [] =>
        some (t2 ++
          [OEvent.out "docker-slim[profile]: state=http.probe.error error='no exposed ports' message='expose your service port with --expose or disable HTTP probing with --http-probe=false if your containerized application doesnt expose any network services",
           OEvent.finishMonitoring,
           OEvent.shutdownContainer,
           OEvent.out "docker-slim[profile]: state=exited"])
      | some (_ :: _) => onProfileFromGate env (t2 ++ [OEvent.probeStarted])
    else
      onProfileFromGate env t2

/-! ## Totality predicates for `NewCustomProbe` (which binding lists the
constructor indexes with `[0]`) -/

/-- A consulted map entry is safe iff it is unbound or has a binding. -/
def bindingsOK (o : Option (List String)) : Bool :=
  match o with
  | none => true
  | some bs => !bs.isEmpty

/-- Every non-control-port entry of the map has at least one binding
(consulted by the `availablePorts` loop, lines 61-68, in both branches). -/
def availOK (ports : List (String × List String)) (c e : String) : Bool :=
  ports.all fun kb => kb.1 == c || kb.1 == e || !kb.2.isEmpty

/-- Every bound target port has at least one binding (lines 72-80). -/
def targetOK (ports : List (String × List String)) (ts : List Nat) : Bool :=
  ts.all fun p => bindingsOK (ports.lookup (targetSpec p))

/-- Every bound normalized exposed port has at least one binding
(lines 85-104). -/
def exposedOK (ports : List (String × List String)) (es : List String) : Bool :=
  es.all fun ep => bindingsOK (ports.lookup (normalizePort ep))

/-! ## Concrete fixtures used by counterexamples and witnesses -/

/-- A container whose port map binds exactly the inspector's command control
port: the map entry "8080/tcp" is the control port `CmdPort`. -/
def insTargetCtl : Inspector := ⟨[("8080/tcp", ["32768"])], "8080/tcp", "9999/tcp", []⟩

/-- A container with a non-control entry whose binding list is empty. -/
def insEmptyBinding : Inspector := ⟨[("7/tcp", [])], "1/tcp", "2/tcp", []⟩

/-- Exposed ports [80, 443, 9000], all bound, control ports unused. -/
def insExposedABC : Inspector :=
  ⟨[("80/tcp", ["32780"]), ("443/tcp", ["32781"]), ("9000/tcp", ["32782"])],
   "65501/tcp", "65502/tcp", ["80", "443", "9000"]⟩

/-- Exposed ports [80, 443] bound, plus a bound non-exposed port 9000 whose
host port stays in the available set after the exposed loop. -/
def insExposedAB : Inspector :=
  ⟨[("80/tcp", ["32780"]), ("443/tcp", ["32781"]), ("9000/tcp", ["32782"])],
   "65501/tcp", "65502/tcp", ["80", "443"]⟩

/-- A container with no bound ports at all (empty plan). -/
def insEmpty : Inspector := ⟨[], "c/tcp", "e/tcp", []⟩

/-- A plain GET over http only. -/
def cmdGET : ProbeCmd :=
  ⟨"GET", "/", "http", ["Content-Type: text/plain"], "", "", ""⟩

/-- A GET with no protocol given (both http and https are tried). -/
def cmdGETBoth : ProbeCmd := ⟨"GET", "/", "", [], "", "", ""⟩

/-- A command whose method is not a valid HTTP method token (contains a
space), so `http.NewRequest` fails. -/
def cmdBadMethod : ProbeCmd := ⟨"BAD METHOD", "/", "http", [], "", "", ""⟩

/-- A probe over one port with `retry_wait = 10`. -/
def cfgBackoff : ProbeConfig := ⟨"p:", true, ["x"], [cmdGET], 1, 10, false⟩

/-- A probe over one port whose single command tries both protocols. -/
def cfgTwoProto : ProbeConfig :=
  ⟨"docker-slim[build]:", true, ["32768"], [cmdGETBoth], 1, 0, false⟩

/-- A probe whose only command has the invalid method. -/
def cfgBad : ProbeConfig := ⟨"p:", true, ["x"], [cmdBadMethod], 1, 0, false⟩

/-- Two ports, one command, `probe_full = false`. -/
def cfgShort : ProbeConfig := ⟨"p:", true, ["a", "b"], [cmdGET], 1, 0, false⟩

/-- Every call fails with the not-ready class. -/
def respNotReady : Nat → Nat → Nat → Nat → CallResult :=
  fun _ _ _ _ => CallResult.fail ErrClass.notReady

/-- Every call succeeds with status 200. -/
def respOK : Nat → Nat → Nat → Nat → CallResult :=
  fun _ _ _ _ => CallResult.ok 200

/-- The success counter after the engine has fully processed the first `k`
ports of the plan (from the initial counters), when that does not panic. -/
def oksUpTo (cfg : ProbeConfig) (resp : Nat → Nat → Nat → Nat → CallResult)
    (k : Nat) : Option Nat :=
  match runPortsAux cfg resp (cfg.ports.take k) 0 ⟨0, 0, 0⟩ with
  | none => none
  | some (c, _, _) => some c.oks

/-- Whether an orchestration event is a report save. -/
def isSave : OEvent → Bool
  | OEvent.saveReport _ => true
  | _ => false

/-- Whether the constructed probe's port plan is non-empty (the check of
build.go line 236 / part_000 line 148 succeeding). -/
def planNonempty (ins : Inspector) (tps : List Nat) : Bool :=
  match newCustomProbePorts ins tps with
  | some (_ :: _) => true
  | _ => false

/-- The observable conditions under which an `OnBuild` run reaches its final
line (no early return, no `os.Exit`, no `errutil.Fail`). -/
def buildCompletes (env : BuildEnv) : Prop :=
  (env.buildFromDockerfile ≠ "" → env.customImageTag ≠ "" →
    buildTagOk env.customImageTag = true) ∧
  env.networkOk = true ∧ env.noImage = false ∧
  ((env.doHTTPProbe = true ∨ env.continueMode = "probe") →
    planNonempty env.inspector env.probePorts = true) ∧
  (modePrompt "docker-slim[build]:" env.continueMode).isSome = true ∧
  env.hasCollectedData = true ∧ env.newImageFound = true

/-- The observable conditions under which an `OnProfile` run reaches its
final line. -/
def profileCompletes (env : ProfileEnv) : Prop :=
  env.networkOk = true ∧ env.noImage = false ∧
  ((env.doHTTPProbe = true ∨ env.continueMode = "probe") →
    planNonempty env.inspector env.probePorts = true) ∧
  (modePrompt "docker-slim[profile]:" env.continueMode).isSome = true ∧
  env.hasCollectedData = true

/-- A profile invocation whose target image is missing. -/
def envProfileNoImage : ProfileEnv :=
  ⟨true, true, "img", false, "enter", insEmpty, [], false, "", true⟩

/-- A profile invocation that runs to completion (probe off, data
collected). -/
def envProfileDone : ProfileEnv :=
  ⟨true, false, "img", false, "enter", insEmpty, [], true, "", true⟩

/-- A profile invocation that reaches the container announcement and then
collects no data. -/
def envProfileNoData : ProfileEnv :=
  ⟨true, false, "img", false, "enter", insEmpty, [], false, "", true⟩

/-- A profile invocation with probing on and an empty port plan. -/
def envProfileEmptyPlan : ProfileEnv :=
  ⟨true, false, "img", true, "enter", insEmpty, [], false, "", true⟩

/-- A build invocation with probing on and an empty port plan. -/
def envBuildEmptyPlan : BuildEnv :=
  ⟨"", "", false, "", "", true, false, "img", false, "", [], true, "enter",
   insEmpty, [], false, false, false, "", true, false⟩

/-- Whether `pfx` is a prefix of `line` (on the underlying characters). -/
def linePrefixed (pfx line : String) : Bool :=
  pfx.data.isPrefixOf line.data

/-- The trace of `onProfile envProfileNoImage`: an image-not-found run. -/
def traceProfileNoImage : List OEvent :=
  [OEvent.out "docker-slim[profile]: state=started",
   OEvent.out "docker-slim[profile]: info=params target=%v",
   OEvent.out "docker-slim[profile]: target image not found - img",
   OEvent.out "docker-slim[profile]: state=exited"]

/-- The trace of `onProfile envProfileDone`: a run to completion. -/
def traceProfileDone : List OEvent :=
  [OEvent.out "docker-slim[profile]: state=started",
   OEvent.out "docker-slim[profile]: info=params target=%v",
   OEvent.out "docker-slim[profile]: state=image.inspection.start",
   OEvent.out "docker-slim[profile]: info=image id=%v size.bytes=%v size.human=%v",
   OEvent.out "docker-slim[profile]: state=image.inspection.done",
   OEvent.out "docker-slim[profile]: state=container.inspection.start",
   OEvent.out "docker-slim[build]: info=container name=%v id=%v target.port.list=[%v] target.port.info=[%v] message='YOU CAN USE THESE PORTS TO INTERACT WITH THE CONTAINER'",
   OEvent.out "docker-slim[profile]: info=prompt message='USER INPUT REQUIRED, PRESS <ENTER> WHEN YOU ARE DONE USING THE CONTAINER'",
   OEvent.out "docker-slim[profile]: state=container.inspection.finishing",
   OEvent.finishMonitoring,
   OEvent.shutdownContainer,
   OEvent.out "docker-slim[profile]: state=container.inspection.artifact.processing",
   OEvent.out "docker-slim[profile]: state=container.inspection.done",
   OEvent.out "docker-slim[profile]: state=completed",
   OEvent.out "docker-slim[profile]: state=done",
   OEvent.versionJoin,
   OEvent.saveReport CmdState.done]

/-- The trace of `onProfile envProfileNoData`: the run reaches the
container announcement (printed with the build prefix, part_000 line 131)
and ends early with no collected data. -/
def traceProfileNoData : List OEvent :=
  [OEvent.out "docker-slim[profile]: state=started",
   OEvent.out "docker-slim[profile]: info=params target=%v",
   OEvent.out "docker-slim[profile]: state=image.inspection.start",
   OEvent.out "docker-slim[profile]: info=image id=%v size.bytes=%v size.human=%v",
   OEvent.out "docker-slim[profile]: state=image.inspection.done",
   OEvent.out "docker-slim[profile]: state=container.inspection.start",
   OEvent.out "docker-slim[build]: info=container name=%v id=%v target.port.list=[%v] target.port.info=[%v] message='YOU CAN USE THESE PORTS TO INTERACT WITH THE CONTAINER'",
   OEvent.out "docker-slim[profile]: info=prompt message='USER INPUT REQUIRED, PRESS <ENTER> WHEN YOU ARE DONE USING THE CONTAINER'",
   OEvent.out "docker-slim[profile]: state=container.inspection.finishing",
   OEvent.finishMonitoring,
   OEvent.shutdownContainer,
   OEvent.out "docker-slim[profile]: state=container.inspection.artifact.processing",
   OEvent.out "docker-slim[profile]: info=results status='no data collected (no minified image generated). (version: %v)'",
   OEvent.out "docker-slim[profile]: state=exited"]

/-- The trace of `onBuild envBuildEmptyPlan`: probing on, empty plan. -/
def traceBuildEmptyPlan : List OEvent :=
  [OEvent.out "docker-slim[build]: state=started",
   OEvent.out "docker-slim[build]: info=params target=%v continue.mode=%v",
   OEvent.out "docker-slim[build]: state=image.inspection.start",
   OEvent.out "docker-slim[build]: info=image id=%v size.bytes=%v size.human=%v",
   OEvent.out "docker-slim[build]: state=image.inspection.done",
   OEvent.out "docker-slim[build]: state=container.inspection.start",
   OEvent.out "docker-slim[build]: info=container name=%v id=%v target.port.list=[%v] target.port.info=[%v] message='YOU CAN USE THESE PORTS TO INTERACT WITH THE CONTAINER'",
   OEvent.out "docker-slim[build]: state=http.probe.error error='no exposed ports' message='expose your service port with --expose or disable HTTP probing with --http-probe=false if your containerized application doesnt expose any network services",
   OEvent.finishMonitoring,
   OEvent.shutdownContainer,
   OEvent.out "docker-slim[build]: state=exited"]

/-- The full trace of `cfgShort` under `respOK`: the first port's only
command succeeds on its first call, so the second port is never visited. -/
def traceShort : List PEvent :=
  [PEvent.out "p: state=http.probe.starting message='WAIT FOR HTTP PROBE TO FINISH'",
   PEvent.sleep 9,
   PEvent.out "p: state=http.probe.running",
   PEvent.request 0 0 0 "http" 0, PEvent.rewind 0, PEvent.drain 0,
   PEvent.out "p: info=http.probe.call status=%v method=%v target=%v attempt=%v %v time=%v",
   PEvent.out "p: info=http.probe.summary total=%v failures=%v successful=%v",
   PEvent.out "p: state=http.probe.done ",
   PEvent.doneClosed,
   PEvent.close 0]

/-- The full trace of `cfgTwoProto` under `respOK`: the http attempt
succeeds (call 0), then the https attempt of the same command succeeds
(call 1); both deferred body closes run only at the end, in LIFO order. -/
def traceTwoProto : List PEvent :=
  [PEvent.out "docker-slim[build]: state=http.probe.starting message='WAIT FOR HTTP PROBE TO FINISH'",
   PEvent.sleep 9,
   PEvent.out "docker-slim[build]: state=http.probe.running",
   PEvent.request 0 0 0 "http" 0, PEvent.rewind 0, PEvent.drain 0,
   PEvent.out "docker-slim[build]: info=http.probe.call status=%v method=%v target=%v attempt=%v %v time=%v",
   PEvent.request 1 0 0 "https" 0, PEvent.rewind 1, PEvent.drain 1,
   PEvent.out "docker-slim[build]: info=http.probe.call status=%v method=%v target=%v attempt=%v %v time=%v",
   PEvent.out "docker-slim[build]: info=http.probe.summary total=%v failures=%v successful=%v",
   PEvent.out "docker-slim[build]: state=http.probe.done ",
   PEvent.doneClosed,
   PEvent.close 1, PEvent.close 0]

end DockerSlim

namespace DockerSlim

/-! ## Lemmas about the port planner -/

/-- The available-ports loop succeeds iff every non-control entry has a
binding (it indexes `nsPortData[0]` on every non-control entry). -/
lemma availablePortsList_isSome {ports : List (String × List String)}
    {c e : String} :
    (availablePortsList ports c e).isSome ↔
      ∀ kb ∈ ports, kb.1 ≠ c → kb.1 ≠ e → kb.2 ≠ [] := by
  induction ports with
  | nil => simp [availablePortsList]
  | cons kb rest ih =>
    rw [availablePortsList]
    by_cases hce : kb.1 = c ∨ kb.1 = e
    · rw [if_pos hce, ih]
      constructor
      · intro hrest p hp hpc hpe
        rcases List.mem_cons.mp hp with rfl | hp'
        · rcases hce with h | h
          · exact absurd h hpc
          · exact absurd h hpe
        · exact hrest p hp' hpc hpe
      · intro hall p hp hpc hpe
        exact hall p (List.mem_cons_of_mem _ hp) hpc hpe
    · rw [if_neg hce]
      push_neg at hce
      split
      · rename_i hhd
        simp only [Option.isSome_none]
        constructor
        · intro h; simp at h
        · intro hall
          exact absurd (List.head?_eq_none_iff.mp hhd)
            (hall kb (List.mem_cons_self _ _) hce.1 hce.2)
      · rename_i hd hhd
        split
        · rename_i hr
          simp only [Option.isSome_none]
          constructor
          · intro h; simp at h
          · intro hall
            have hs : (availablePortsList rest c e).isSome := ih.mpr
              (fun p hp hpc hpe => hall p (List.mem_cons_of_mem _ hp) hpc hpe)
            rw [hr] at hs; simp at hs
        · rename_i l hr
          simp only [Option.isSome_some, true_iff]
          intro p hp hpc hpe
          rcases List.mem_cons.mp hp with rfl | hp'
          · intro hnil
            rw [hnil] at hhd; simp at hhd
          · exact ih.mp (by rw [hr]; simp) p hp' hpc hpe

/-- The target-ports loop succeeds iff every bound target entry has a
binding. -/
lemma targetPlan_isSome {ports : List (String × List String)} {ts : List Nat} :
    (targetPlan ports ts).isSome ↔
      ∀ p ∈ ts, ∀ bs, ports.lookup (targetSpec p) = some bs → bs ≠ [] := by
  induction ts with
  | nil => simp [targetPlan]
  | cons p ps ih =>
    rw [targetPlan]
    split
    · rename_i hlk
      rw [ih]
      constructor
      · intro hrest q hq bs hbs
        rcases List.mem_cons.mp hq with rfl | hq'
        · rw [hlk] at hbs; cases hbs
        · exact hrest q hq' bs hbs
      · intro hall q hq bs hbs
        exact hall q (List.mem_cons_of_mem _ hq) bs hbs
    · rename_i bs hlk
      split
      · rename_i hhd
        simp only [Option.isSome_none]
        constructor
        · intro h; simp at h
        · intro hall
          exact absurd (List.head?_eq_none_iff.mp hhd)
            (hall p (List.mem_cons_self _ _) bs hlk)
      · rename_i hd hhd
        split
        · rename_i hr
          simp only [Option.isSome_none]
          constructor
          · intro h; simp at h
          · intro hall
            have hs : (targetPlan ports ps).isSome := ih.mpr
              (fun q hq bs' hbs' => hall q (List.mem_cons_of_mem _ hq) bs' hbs')
            rw [hr] at hs; simp at hs
        · rename_i rest hr
          simp only [Option.isSome_some, true_iff]
          intro q hq bs' hbs'
          rcases List.mem_cons.mp hq with rfl | hq'
          · rw [hlk] at hbs'
            obtain rfl : bs = bs' := by injection hbs'
            intro hnil
            rw [hnil] at hhd; simp at hhd
          · exact ih.mp (by rw [hr]; simp) q hq' bs' hbs'

/-- The exposed-ports loop succeeds iff every bound normalized exposed entry
has a binding (independently of the available set it threads). -/
lemma exposedLoop_isSome {ports : List (String × List String)}
    {es : List String} : ∀ {avail : List String},
    (exposedLoop ports es avail).isSome ↔
      ∀ ep ∈ es, ∀ bs, ports.lookup (normalizePort ep) = some bs → bs ≠ [] := by
  induction es with
  | nil => intro avail; simp [exposedLoop]
  | cons ep rest ih =>
    intro avail
    rw [exposedLoop]
    split
    · rename_i hlk
      rw [ih]
      constructor
      · intro hrest q hq bs hbs
        rcases List.mem_cons.mp hq with rfl | hq'
        · rw [hlk] at hbs; cases hbs
        · exact hrest q hq' bs hbs
      · intro hall q hq bs hbs
        exact hall q (List.mem_cons_of_mem _ hq) bs hbs
    · rename_i bs hlk
      split
      · rename_i hhd
        simp only [Option.isSome_none]
        constructor
        · intro h; simp at h
        · intro hall
          exact absurd (List.head?_eq_none_iff.mp hhd)
            (hall ep (List.mem_cons_self _ _) bs hlk)
      · rename_i hd hhd
        split
        · rename_i hr
          simp only [Option.isSome_none]
          constructor
          · intro h; simp at h
          · intro hall
            have hs : (exposedLoop ports rest (avail.erase hd)).isSome := ih.mpr
              (fun q hq bs' hbs' => hall q (List.mem_cons_of_mem _ hq) bs' hbs')
            rw [hr] at hs; simp at hs
        · rename_i pl' av' hr
          simp only [Option.isSome_some, true_iff]
          intro q hq bs' hbs'
          rcases List.mem_cons.mp hq with rfl | hq'
          · rw [hlk] at hbs'
            obtain rfl : bs = bs' := by injection hbs'
            intro hnil
            rw [hnil] at hhd; simp at hhd
          · exact ih.mp (by rw [hr]; simp) q hq' bs' hbs'

/-- Bridge between the boolean safety check of one entry and its
propositional form. -/
lemma bindingsOK_iff {o : Option (List String)} :
    bindingsOK o = true ↔ ∀ bs, o = some bs → bs ≠ [] := by
  cases o <;> simp [bindingsOK]

/-- Boolean/propositional bridge for `availOK`. -/
lemma availOK_iff {ports : List (String × List String)} {c e : String} :
    availOK ports c e = true ↔
      ∀ kb ∈ ports, kb.1 ≠ c → kb.1 ≠ e → kb.2 ≠ [] := by
  rw [availOK, List.all_eq_true]
  constructor
  · intro h kb hkb h1 h2
    have hk := h kb hkb
    simp [h1, h2] at hk
    simpa using hk
  · intro h kb hkb
    by_cases h1 : kb.1 = c
    · simp [h1]
    · by_cases h2 : kb.1 = e
      · simp [h2]
      · simp [h1, h2, h kb hkb h1 h2]

/-- Boolean/propositional bridge for `targetOK`. -/
lemma targetOK_iff {ports : List (String × List String)} {ts : List Nat} :
    targetOK ports ts = true ↔
      ∀ p ∈ ts, ∀ bs, ports.lookup (targetSpec p) = some bs → bs ≠ [] := by
  rw [targetOK, List.all_eq_true]
  constructor
  · intro h p hp
    exact bindingsOK_iff.mp (h p hp)
  · intro h p hp
    exact bindingsOK_iff.mpr (h p hp)

/-- Boolean/propositional bridge for `exposedOK`. -/
lemma exposedOK_iff {ports : List (String × List String)} {es : List String} :
    exposedOK ports es = true ↔
      ∀ ep ∈ es, ∀ bs, ports.lookup (normalizePort ep) = some bs → bs ≠ [] := by
  rw [exposedOK, List.all_eq_true]
  constructor
  · intro h ep hep
    exact bindingsOK_iff.mp (h ep hep)
  · intro h ep hep
    exact bindingsOK_iff.mpr (h ep hep)

/-- A successful association-list lookup locates a member pair. -/
lemma lookup_mem {l : List (String × List String)} {k : String}
    {bs : List String} (h : l.lookup k = some bs) : (k, bs) ∈ l := by
  induction l with
  | nil => simp [List.lookup] at h
  | cons kb rest ih =>
    rw [List.lookup] at h
    rcases hbe : k == kb.1 with _ | _
    · rw [hbe] at h
      exact List.mem_cons_of_mem _ (ih h)
    · rw [hbe] at h
      obtain rfl : k = kb.1 := eq_of_beq hbe
      obtain rfl : kb.2 = bs := by injection h
      simp

/-- Every host port in the available set is the first binding of a
non-control-port entry of the map. -/
lemma avail_mem {ports : List (String × List String)} {c e : String}
    {l : List String} (h : availablePortsList ports c e = some l) :
    ∀ x ∈ l, ∃ kb ∈ ports, kb.1 ≠ c ∧ kb.1 ≠ e ∧ kb.2.head? = some x := by
  induction ports generalizing l with
  | nil =>
    simp only [availablePortsList, Option.some.injEq] at h
    subst h; simp
  | cons kb rest ih =>
    rw [availablePortsList] at h
    split at h
    · intro x hx
      obtain ⟨p, hp, hps⟩ := ih h x hx
      exact ⟨p, List.mem_cons_of_mem _ hp, hps⟩
    · rename_i hctl
      push_neg at hctl
      rcases hhd : kb.2.head? with _ | hd
      · rw [hhd] at h; cases h
      · rw [hhd] at h
        rcases hrest : availablePortsList rest c e with _ | l'
        · rw [hrest] at h; cases h
        · rw [hrest] at h
          simp only [Option.some.injEq] at h
          subst h
          intro x hx
          by_cases hmem : hd ∈ l'
          · rw [if_pos hmem] at hx
            obtain ⟨p, hp, hps⟩ := ih hrest x hx
            exact ⟨p, List.mem_cons_of_mem _ hp, hps⟩
          · rw [if_neg hmem] at hx
            rcases List.mem_cons.mp hx with rfl | hx'
            · exact ⟨kb, List.mem_cons_self _ _, hctl.1, hctl.2, hhd⟩
            · obtain ⟨p, hp, hps⟩ := ih hrest x hx'
              exact ⟨p, List.mem_cons_of_mem _ hp, hps⟩

/-- The exposed-ports loop produces exactly the reversed-exposed-order
prefix (bound entries' first bindings, unbound skipped), and only shrinks
the available set. -/
lemma exposedLoop_spec {ports : List (String × List String)}
    {es avail : List String} {pl av : List String}
    (h : exposedLoop ports es avail = some (pl, av)) :
    pl = es.filterMap
        (fun ep => (ports.lookup (normalizePort ep)).bind List.head?) ∧
      ∀ x ∈ av, x ∈ avail := by
  induction es generalizing avail pl av with
  | nil =>
    simp only [exposedLoop, Option.some.injEq, Prod.mk.injEq] at h
    obtain ⟨rfl, rfl⟩ := h
    simp
  | cons ep rest ih =>
    rw [exposedLoop] at h
    split at h
    · rename_i hlk
      obtain ⟨h1, h2⟩ := ih h
      refine ⟨?_, h2⟩
      rw [List.filterMap_cons, hlk]
      exact h1
    · rename_i bs hlk
      split at h
      · simp at h
      · rename_i hd hhd
        split at h
        · simp at h
        · rename_i pl' av' hrec
          simp only [Option.some.injEq, Prod.mk.injEq] at h
          obtain ⟨rfl, rfl⟩ := h
          obtain ⟨h1, h2⟩ := ih hrec
          constructor
          · simp [List.filterMap_cons, hlk, hhd, h1]
          · intro x hx
            exact List.erase_subset _ _ (h2 x hx)

/-- The exposed-ports loop returns exactly what is left of the available set
after erasing, in order, each host port it put into the prefix — the list
analogue of the loop's `delete(availablePorts, hostPort)` calls. -/
lemma exposedLoop_av {ports : List (String × List String)}
    {es avail pl av : List String}
    (h : exposedLoop ports es avail = some (pl, av)) :
    av = pl.foldl (fun l x => l.erase x) avail := by
  induction es generalizing avail pl av with
  | nil =>
    simp only [exposedLoop, Option.some.injEq, Prod.mk.injEq] at h
    obtain ⟨rfl, rfl⟩ := h
    simp
  | cons ep rest ih =>
    rw [exposedLoop] at h
    split at h
    · exact ih h
    · rename_i bs hlk
      split at h
      · simp at h
      · rename_i hd hhd
        split at h
        · simp at h
        · rename_i pl' av' hrec
          simp only [Option.some.injEq, Prod.mk.injEq] at h
          obtain ⟨rfl, rfl⟩ := h
          rw [ih hrec, List.foldl_cons]

/-- C1 (corrected claim), general part: when `target_ports` is empty and no
normalized exposed port names a control port, every host port of the plan is
the first host binding of some non-control-port entry of the container's
port map — the plan is attributable entirely to non-control ports. -/
theorem portPlan_noncontrol_when_targets_empty (ins : Inspector)
    (hexp : ∀ ep ∈ ins.exposedPorts,
      normalizePort ep ≠ ins.cmdPort ∧ normalizePort ep ≠ ins.evtPort)
    (plan : List String) (h : newCustomProbePorts ins [] = some plan) :
    ∀ x ∈ plan, ∃ kb ∈ ins.ports,
      kb.1 ≠ ins.cmdPort ∧ kb.1 ≠ ins.evtPort ∧ kb.2.head? = some x := by
  rw [newCustomProbePorts] at h
  split at h
  · simp at h
  · rename_i avail ha
    rw [if_neg (by simp)] at h
    split at h
    · simp at h
    · rename_i pl av he
      simp only [Option.some.injEq] at h
      subst h
      obtain ⟨hpl, hav⟩ := exposedLoop_spec he
      intro x hx
      rcases List.mem_append.mp hx with hx | hx
      · rw [hpl] at hx
        obtain ⟨ep, hep, hfx⟩ := List.mem_filterMap.mp hx
        rcases hlk : ins.ports.lookup (normalizePort ep) with _ | bs
        · rw [hlk] at hfx; cases hfx
        · rw [hlk] at hfx
          simp only [Option.some_bind] at hfx
          have hep' := List.mem_reverse.mp hep
          exact ⟨(normalizePort ep, bs), lookup_mem hlk,
            (hexp ep hep').1, (hexp ep hep').2, hfx⟩
      · exact avail_mem ha x (hav x hx)

/-- C1 counterexample: with `target_ports = [8080]` and the container map
binding the inspector's command control port "8080/tcp" to host port 32768,
`NewCustomProbe`'s plan is exactly ["32768"] — the host port of the control
port, which the claim says can never appear. -/
theorem portPlan_includes_targeted_control_port :
    newCustomProbePorts insTargetCtl [8080] = some ["32768"] ∧
      insTargetCtl.ports.lookup insTargetCtl.cmdPort = some ["32768"] ∧
      "32768" ∈ ["32768"] := by
  refine ⟨by decide, by decide, by decide⟩

/-- Witness for the corrected C1 theorem at a concrete container. -/
theorem portPlan_noncontrol_witness :
    ∃ kb ∈ insExposedABC.ports,
      kb.1 ≠ insExposedABC.cmdPort ∧ kb.1 ≠ insExposedABC.evtPort ∧
      kb.2.head? = some "32782" :=
  portPlan_noncontrol_when_targets_empty insExposedABC (by decide)
    ["32782", "32781", "32780"] (by decide) "32782" (by decide)

/-- C5: with empty `target_ports` the plan is the host ports of the image's
exposed ports in reverse declaration order (entries without "/proto"
normalized to "/tcp", unbound entries skipped), followed by exactly the
remaining available bound host ports: what is left of the available set
(each entry the first binding of a non-control port-map entry) after the
loop's deletes of the host ports consumed by the prefix — no remaining
available port is dropped. -/
theorem portPlan_reverse_exposed_order (ins : Inspector)
    (plan avail : List String)
    (ha : availablePortsList ins.ports ins.cmdPort ins.evtPort = some avail)
    (h : newCustomProbePorts ins [] = some plan) :
    ∃ rest, plan = ins.exposedPorts.reverse.filterMap
        (fun ep => (ins.ports.lookup (normalizePort ep)).bind List.head?) ++ rest
      ∧ rest = (ins.exposedPorts.reverse.filterMap
          (fun ep => (ins.ports.lookup (normalizePort ep)).bind
            List.head?)).foldl (fun l x => l.erase x) avail
      ∧ ∀ x ∈ rest, ∃ kb ∈ ins.ports,
          kb.1 ≠ ins.cmdPort ∧ kb.1 ≠ ins.evtPort ∧ kb.2.head? = some x := by
  rw [newCustomProbePorts] at h
  split at h
  · simp at h
  · rename_i avail2 ha2
    rw [ha] at ha2
    obtain rfl : avail = avail2 := by injection ha2
    rw [if_neg (by simp)] at h
    split at h
    · simp at h
    · rename_i pl av he
      simp only [Option.some.injEq] at h
      subst h
      obtain ⟨hpl, hsub⟩ := exposedLoop_spec he
      have hav := exposedLoop_av he
      subst hpl
      exact ⟨av, rfl, hav, fun x hx => avail_mem ha x (hsub x hx)⟩

/-- Witness for C5: exposed ports [80, 443] bound and a third bound
non-exposed port 9000 give plan [32781, 32780, 32782] — prefix
[host(443), host(80)] in reverse declaration order, followed by the
non-empty remainder [32782] of the available set. -/
theorem portPlan_reverse_exposed_order_witness :
    newCustomProbePorts insExposedAB [] = some ["32781", "32780", "32782"] ∧
    availablePortsList insExposedAB.ports insExposedAB.cmdPort
        insExposedAB.evtPort = some ["32780", "32781", "32782"] ∧
    insExposedAB.exposedPorts.reverse.filterMap
        (fun ep => (insExposedAB.ports.lookup (normalizePort ep)).bind
          List.head?) = ["32781", "32780"] ∧
    (["32781", "32780"].foldl (fun l x => l.erase x)
        ["32780", "32781", "32782"]) = ["32782"] ∧
    (∃ rest, ["32781", "32780", "32782"]
        = insExposedAB.exposedPorts.reverse.filterMap
            (fun ep =>
              (insExposedAB.ports.lookup (normalizePort ep)).bind List.head?)
          ++ rest
      ∧ rest = (insExposedAB.exposedPorts.reverse.filterMap
          (fun ep => (insExposedAB.ports.lookup (normalizePort ep)).bind
            List.head?)).foldl (fun l x => l.erase x)
          ["32780", "32781", "32782"]
      ∧ ∀ x ∈ rest, ∃ kb ∈ insExposedAB.ports,
          kb.1 ≠ insExposedAB.cmdPort ∧ kb.1 ≠ insExposedAB.evtPort ∧
          kb.2.head? = some x) :=
  ⟨by decide, by decide, by decide, by decide,
    portPlan_reverse_exposed_order insExposedAB ["32781", "32780", "32782"]
      ["32780", "32781", "32782"] (by decide) (by decide)⟩

/-- C9 (corrected claim): `NewCustomProbe` is total exactly when (a) every
non-control-port entry of the map has a binding (the `availablePorts` loop
runs in both branches), and (b) additionally every bound entry the chosen
branch consults has one — bound target ports when `target_ports` is
non-empty, bound normalized exposed ports when it is empty.  Moreover the
returned `error` is always nil. -/
theorem newCustomProbe_totality (ins : Inspector) (ts : List Nat) :
    ((newCustomProbePorts ins ts).isSome =
      (availOK ins.ports ins.cmdPort ins.evtPort &&
        (if ts.isEmpty then exposedOK ins.ports ins.exposedPorts
         else targetOK ins.ports ts))) ∧
    ∀ r, newCustomProbe ins ts = some r → r.2 = none := by
  constructor
  · rw [Bool.eq_iff_iff, Bool.and_eq_true]
    rw [newCustomProbePorts]
    split
    · rename_i ha
      simp only [Option.isSome_none]
      constructor
      · intro h; simp at h
      · rintro ⟨h1, _⟩
        have hs := availablePortsList_isSome.mpr (availOK_iff.mp h1)
        rw [ha] at hs; simp at hs
    · rename_i avail ha
      have havail : availOK ins.ports ins.cmdPort ins.evtPort = true :=
        availOK_iff.mpr (availablePortsList_isSome.mp (by rw [ha]; simp))
      rcases ts with _ | ⟨p, ps⟩
      · rw [if_neg (by simp)]
        rw [show (if ([] : List Nat).isEmpty then exposedOK ins.ports ins.exposedPorts
            else targetOK ins.ports []) = exposedOK ins.ports ins.exposedPorts from rfl]
        constructor
        · intro h
          refine ⟨havail, ?_⟩
          rcases he : exposedLoop ins.ports ins.exposedPorts.reverse avail
            with _ | ⟨pl, av⟩
          · rw [he] at h; simp at h
          · have := exposedLoop_isSome.mp (by rw [he]; rfl)
            refine exposedOK_iff.mpr ?_
            intro ep hep bs hbs
            exact this ep (List.mem_reverse.mpr hep) bs hbs
        · rintro ⟨_, h2⟩
          have : (exposedLoop ins.ports ins.exposedPorts.reverse avail).isSome :=
            exposedLoop_isSome.mpr
              (fun ep hep bs hbs =>
                exposedOK_iff.mp h2 ep (List.mem_reverse.mp hep) bs hbs)
          rcases he : exposedLoop ins.ports ins.exposedPorts.reverse avail
            with _ | ⟨pl, av⟩
          · rw [he] at this; simp at this
          · simp
      · rw [if_pos (by simp)]
        rw [show (if (p :: ps : List Nat).isEmpty then
              exposedOK ins.ports ins.exposedPorts
            else targetOK ins.ports (p :: ps)) = targetOK ins.ports (p :: ps)
          from rfl]
        constructor
        · intro h
          exact ⟨havail, targetOK_iff.mpr (targetPlan_isSome.mp h)⟩
        · rintro ⟨_, h2⟩
          exact targetPlan_isSome.mpr (targetOK_iff.mp h2)
  · intro r hr
    rw [newCustomProbe] at hr
    rcases hp : newCustomProbePorts ins ts with _ | pl
    · rw [hp] at hr; cases hr
    · rw [hp] at hr
      simp only [Option.some.injEq] at hr
      subst hr
      rfl

/-- C9 counterexample: with `target_ports = [8]` (8 unbound, so every bound
target entry vacuously has a binding — the claim's stated precondition for
the non-empty-target case) and a non-control entry "7/tcp" with an empty
binding list, `NewCustomProbe` still panics: the `availablePorts` loop runs
before the target branch and indexes the empty binding list. -/
theorem newCustomProbe_panics_despite_target_precondition :
    targetOK insEmptyBinding.ports [8] = true ∧
      newCustomProbePorts insEmptyBinding [8] = none := by
  refine ⟨by decide, by decide⟩

/-- Witness for the corrected C9 theorem at concrete containers. -/
theorem newCustomProbe_totality_witness :
    (newCustomProbePorts insExposedABC []).isSome = true ∧
      ((["32768"], (none : Option String)).2 = none) :=
  ⟨by rw [(newCustomProbe_totality insExposedABC []).1]; decide,
   (newCustomProbe_totality insTargetCtl [8080]).2 (["32768"], none) (by decide)⟩

/-- C6: for every failed attempt the backoff wait is selected by error
class — 8/16/4 seconds (web/not-ready/other) with `retry_wait` unset, and
R/2R/R÷2 with `retry_wait = R > 0` (so 20/10/5 at R = 10); the engine sleeps
exactly `waitFor retryWait class` seconds after a failed attempt. -/
theorem backoff_selection :
    (waitFor 0 ErrClass.web = 8 ∧ waitFor 0 ErrClass.notReady = 16 ∧
      waitFor 0 ErrClass.other = 4) ∧
    (∀ R : Nat, 0 < R → waitFor R ErrClass.web = R ∧
      waitFor R ErrClass.notReady = 2 * R ∧ waitFor R ErrClass.other = R / 2) ∧
    (waitFor 10 ErrClass.notReady = 20 ∧ waitFor 10 ErrClass.web = 10 ∧
      waitFor 10 ErrClass.other = 5) ∧
    (∀ cfg resp cmd pi ci pri proto fuel i cnt e c2 evs dfs,
      resp pi ci pri i = CallResult.fail e →
      runAttempts cfg resp cmd pi ci pri proto (fuel + 1) i cnt
        = some (c2, evs, dfs) →
      PEvent.sleep (waitFor cfg.retryWait e) ∈ evs) := by
  refine ⟨⟨rfl, rfl, rfl⟩, ?_, ⟨rfl, rfl, rfl⟩, ?_⟩
  · intro R hR
    refine ⟨?_, ?_, ?_⟩ <;> simp [waitFor, hR, Nat.mul_comm]
  · intro cfg resp cmd pi ci pri proto fuel i cnt e c2 evs dfs hresp hrun
    rw [runAttempts] at hrun
    by_cases hv : validMethod cmd.method = true
    · rw [if_pos hv] at hrun
      split at hrun
      · rename_i st heq
        rw [hresp] at heq
        cases heq
      · rename_i e' heq
        rw [hresp] at heq
        obtain rfl : e = e' := by injection heq
        dsimp only at hrun
        split at hrun
        · simp at hrun
        · rename_i cnt2 evs2 dfs2 hrec
          simp only [Option.some.injEq, Prod.mk.injEq] at hrun
          obtain ⟨-, rfl, -⟩ := hrun
          simp
    · rw [if_neg hv] at hrun
      simp at hrun

/-- Witness for C6 at `retry_wait = 10` and a not-ready failure: the engine
waits 20 seconds. -/
theorem backoff_selection_witness :
    PEvent.sleep (waitFor 10 ErrClass.notReady) ∈
      ([PEvent.request 0 0 0 "http" 0, PEvent.rewind 0,
        PEvent.out ("p: " ++ callLine), PEvent.sleep 20] : List PEvent) :=
  backoff_selection.2.2.2 cfgBackoff respNotReady cmdGET 0 0 0 "http" 0 0
    ⟨0, 0, 0⟩ ErrClass.notReady ⟨1, 0, 1⟩ _ [] rfl rfl

/-- Helper for C10: an invalid method makes the retry loop panic on its
first attempt (any positive retry budget). -/
lemma runAttempts_invalid {cfg : ProbeConfig}
    {resp : Nat → Nat → Nat → Nat → CallResult} {cmd : ProbeCmd}
    {pi ci pri : Nat} {proto : String} {fuel i : Nat} {cnt : PCnt}
    (hv : validMethod cmd.method = false) :
    runAttempts cfg resp cmd pi ci pri proto (fuel + 1) i cnt = none := by
  rw [runAttempts, if_neg (by simp [hv])]

/-- Helper for C10: a command list containing an invalid-method command makes
the whole command loop panic. -/
lemma runCmds_invalid {cfg : ProbeConfig}
    {resp : Nat → Nat → Nat → Nat → CallResult} {pi : Nat}
    {cmds : List ProbeCmd} {ci : Nat} {cnt : PCnt}
    (h : ∃ cmd ∈ cmds, validMethod cmd.method = false) :
    runCmds cfg resp pi cmds ci cnt = none := by
  induction cmds generalizing ci cnt with
  | nil => obtain ⟨cmd, hc, -⟩ := h; cases hc
  | cons cmd rest ih =>
    rw [runCmds]
    obtain ⟨bad, hbad, hbv⟩ := h
    rcases List.mem_cons.mp hbad with rfl | hbad'
    · have hne : ∃ k, maxRetryOf cfg = k + 1 := by
        rw [maxRetryOf]
        split
        · rename_i hrc
          exact ⟨cfg.retryCount - 1, by omega⟩
        · exact ⟨4, rfl⟩
      obtain ⟨k, hk⟩ := hne
      have hproto : ∃ p ps, protocolsOf bad = p :: ps := by
        rw [protocolsOf]
        split
        · exact ⟨"http", ["https"], rfl⟩
        · exact ⟨bad.protocol, [], rfl⟩
      obtain ⟨p, ps, hp⟩ := hproto
      rw [hp, runProtos, hk, runAttempts_invalid hbv]
    · rcases hpr : runProtos cfg resp cmd pi ci (protocolsOf cmd) 0 cnt
        with _ | ⟨c1, e1, d1⟩
      · rfl
      · simp [ih ⟨bad, hbad', hbv⟩]

/-- C10: the error from `http.NewRequest` (line 180) is overwritten unchecked
at line 197; with any command whose method is not a valid HTTP method and a
non-empty port plan, the worker dereferences the nil request and panics (the
run is `none`) instead of recording a failed call — there is no final
counter state at all. -/
theorem invalid_method_panics (cfg : ProbeConfig)
    (resp : Nat → Nat → Nat → Nat → CallResult) (hports : cfg.ports ≠ [])
    (hbad : ∃ cmd ∈ cfg.cmds, validMethod cmd.method = false) :
    runEngine cfg resp = none := by
  rcases hp : cfg.ports with _ | ⟨p, ps⟩
  · exact absurd hp hports
  · rw [runEngine, hp, runPortsAux, if_neg (by simp), runCmds_invalid hbad]

/-- Witness for C10: the concrete bad-method probe panics. -/
theorem invalid_method_panics_witness :
    runEngine cfgBad respOK = none :=
  invalid_method_panics cfgBad respOK (by decide)
    ⟨cmdBadMethod, by decide, by decide⟩

/-- No close event is emitted by the print combinator. -/
lemma outIf_noClose {b : Bool} {s : String} {n : Nat} :
    PEvent.close n ∉ outIf b s := by
  cases b <;> simp [outIf]

/-- The retry loop emits no close event (closes are only deferred). -/
lemma runAttempts_noClose {cfg : ProbeConfig}
    {resp : Nat → Nat → Nat → Nat → CallResult} {cmd : ProbeCmd}
    {pi ci pri : Nat} {proto : String} : ∀ {fuel i : Nat} {cnt : PCnt}
    {c : PCnt} {e : List PEvent} {d : List Nat},
    runAttempts cfg resp cmd pi ci pri proto fuel i cnt = some (c, e, d) →
    ∀ n, PEvent.close n ∉ e := by
  intro fuel
  induction fuel with
  | zero =>
    intro i cnt c e d h n
    rw [runAttempts] at h
    simp only [Option.some.injEq, Prod.mk.injEq] at h
    obtain ⟨-, rfl, -⟩ := h
    simp
  | succ fuel ih =>
    intro i cnt c e d h n
    rw [runAttempts] at h
    by_cases hv : validMethod cmd.method = true
    · rw [if_pos hv] at h
      dsimp only at h
      split at h
      · rename_i st heq
        simp only [Option.some.injEq, Prod.mk.injEq] at h
        obtain ⟨-, rfl, -⟩ := h
        intro hmem
        cases hb : cfg.printState <;> simp [outIf, hb] at hmem
      · rename_i e' heq
        split at h
        · simp at h
        · rename_i cnt2 evs2 dfs2 hrec
          simp only [Option.some.injEq, Prod.mk.injEq] at h
          obtain ⟨-, rfl, -⟩ := h
          intro hmem
          cases hb : cfg.printState <;> simp [outIf, hb] at hmem <;>
            exact ih hrec n hmem
    · rw [if_neg hv] at h
      simp at h

/-- The protocol loop emits no close event. -/
lemma runProtos_noClose {cfg : ProbeConfig}
    {resp : Nat → Nat → Nat → Nat → CallResult} {cmd : ProbeCmd}
    {pi ci : Nat} : ∀ {protos : List String} {pri : Nat} {cnt : PCnt}
    {c : PCnt} {e : List PEvent} {d : List Nat},
    runProtos cfg resp cmd pi ci protos pri cnt = some (c, e, d) →
    ∀ n, PEvent.close n ∉ e := by
  intro protos
  induction protos with
  | nil =>
    intro pri cnt c e d h n
    rw [runProtos] at h
    simp only [Option.some.injEq, Prod.mk.injEq] at h
    obtain ⟨-, rfl, -⟩ := h
    simp
  | cons proto rest ih =>
    intro pri cnt c e d h n
    rw [runProtos] at h
    split at h
    · simp at h
    · rename_i c1 e1 d1 h1
      split at h
      · simp at h
      · rename_i c2 e2 d2 h2
        simp only [Option.some.injEq, Prod.mk.injEq] at h
        obtain ⟨-, rfl, -⟩ := h
        intro hmem
        rcases List.mem_append.mp hmem with hmem | hmem
        · exact runAttempts_noClose h1 n hmem
        · exact ih h2 n hmem

/-- The command loop emits no close event. -/
lemma runCmds_noClose {cfg : ProbeConfig}
    {resp : Nat → Nat → Nat → Nat → CallResult} {pi : Nat} :
    ∀ {cmds : List ProbeCmd} {ci : Nat} {cnt : PCnt}
    {c : PCnt} {e : List PEvent} {d : List Nat},
    runCmds cfg resp pi cmds ci cnt = some (c, e, d) →
    ∀ n, PEvent.close n ∉ e := by
  intro cmds
  induction cmds with
  | nil =>
    intro ci cnt c e d h n
    rw [runCmds] at h
    simp only [Option.some.injEq, Prod.mk.injEq] at h
    obtain ⟨-, rfl, -⟩ := h
    simp
  | cons cmd rest ih =>
    intro ci cnt c e d h n
    rw [runCmds] at h
    split at h
    · simp at h
    · rename_i c1 e1 d1 h1
      split at h
      · simp at h
      · rename_i c2 e2 d2 h2
        simp only [Option.some.injEq, Prod.mk.injEq] at h
        obtain ⟨-, rfl, -⟩ := h
        intro hmem
        rcases List.mem_append.mp hmem with hmem | hmem
        · exact runProtos_noClose h1 n hmem
        · exact ih h2 n hmem

/-- The port loop emits no close event. -/
lemma runPortsAux_noClose {cfg : ProbeConfig}
    {resp : Nat → Nat → Nat → Nat → CallResult} :
    ∀ {ports : List String} {pi : Nat} {cnt : PCnt}
    {c : PCnt} {e : List PEvent} {d : List Nat},
    runPortsAux cfg resp ports pi cnt = some (c, e, d) →
    ∀ n, PEvent.close n ∉ e := by
  intro ports
  induction ports with
  | nil =>
    intro pi cnt c e d h n
    rw [runPortsAux] at h
    simp only [Option.some.injEq, Prod.mk.injEq] at h
    obtain ⟨-, rfl, -⟩ := h
    simp
  | cons port rest ih =>
    intro pi cnt c e d h n
    rw [runPortsAux] at h
    split at h
    · simp only [Option.some.injEq, Prod.mk.injEq] at h
      obtain ⟨-, rfl, -⟩ := h
      simp
    · split at h
      · simp at h
      · rename_i c1 e1 d1 h1
        split at h
        · simp at h
        · rename_i c2 e2 d2 h2
          simp only [Option.some.injEq, Prod.mk.injEq] at h
          obtain ⟨-, rfl, -⟩ := h
          intro hmem
          rcases List.mem_append.mp hmem with hmem | hmem
          · exact runCmds_noClose h1 n hmem
          · exact ih h2 n hmem

/-- C3 (corrected claim): (a) a successful attempt drains its response body
(discarding the bytes) within the attempt itself, immediately after the call
and its body rewind, and merely registers the deferred close of its call;
(b) the deferred closes all run at the very end of the probe run, after the
done-channel close — so no body is closed before the next attempt. -/
theorem body_drain_close_discipline :
    (∀ cfg resp cmd pi ci pri proto fuel i cnt st c2 evs dfs,
      resp pi ci pri i = CallResult.ok st →
      runAttempts cfg resp cmd pi ci pri proto (fuel + 1) i cnt
        = some (c2, evs, dfs) →
      evs = [PEvent.request cnt.calls pi ci proto i, PEvent.rewind cnt.calls,
          PEvent.drain cnt.calls] ++
        outIf cfg.printState (cfg.pfx ++ " " ++ callLine) ∧
      dfs = [cnt.calls]) ∧
    (∀ cfg resp cnt tr, runEngine cfg resp = some (cnt, tr) →
      ∃ (pre : List PEvent) (ds : List Nat),
        tr = pre ++ [PEvent.doneClosed] ++ ds.map PEvent.close ∧
        ∀ n, PEvent.close n ∉ pre) := by
  constructor
  · intro cfg resp cmd pi ci pri proto fuel i cnt st c2 evs dfs hresp hrun
    rw [runAttempts] at hrun
    by_cases hv : validMethod cmd.method = true
    · rw [if_pos hv] at hrun
      split at hrun
      · rename_i st' heq
        simp only [Option.some.injEq, Prod.mk.injEq] at hrun
        obtain ⟨-, rfl, rfl⟩ := hrun
        exact ⟨rfl, rfl⟩
      · rename_i e' heq
        rw [hresp] at heq
        cases heq
    · rw [if_neg hv] at hrun
      simp at hrun
  · intro cfg resp cnt tr hrun
    rw [runEngine] at hrun
    split at hrun
    · simp at hrun
    · rename_i cnt' evs dfs hports
      simp only [Option.some.injEq, Prod.mk.injEq] at hrun
      obtain ⟨rfl, rfl⟩ := hrun
      refine ⟨outIf cfg.printState
          (cfg.pfx ++ " state=http.probe.starting message='WAIT FOR HTTP PROBE TO FINISH'") ++
          [PEvent.sleep 9] ++
          outIf cfg.printState (cfg.pfx ++ " state=http.probe.running") ++
          evs ++
          outIf cfg.printState
            (cfg.pfx ++ " info=http.probe.summary total=%v failures=%v successful=%v") ++
          outIf cfg.printState (cfg.pfx ++ " state=http.probe.done " ++ warningOf cnt'),
        dfs.reverse, by simp, ?_⟩
      intro n hmem
      have hevs : PEvent.close n ∉ evs := runPortsAux_noClose hports n
      cases hb : cfg.printState <;> simp [outIf, hb] at hmem <;> exact hevs hmem

/-- C3 counterexample: under `cfgTwoProto` (one command, both protocols
tried) with every call succeeding, the http attempt yields a response whose
body close runs only after the https attempt's request — later than the
claim permits. -/
theorem response_close_deferred_counterexample :
    runEngine cfgTwoProto respOK = some (⟨2, 2, 0⟩, traceTwoProto) ∧
      PEvent.drain 0 ∈ traceTwoProto ∧ PEvent.close 0 ∈ traceTwoProto ∧
      traceTwoProto.findIdx (fun ev => ev == PEvent.request 1 0 0 "https" 0) <
        traceTwoProto.findIdx (fun ev => ev == PEvent.close 0) := by
  refine ⟨by decide, by decide, by decide, by decide⟩

/-- Once the break condition holds (a success with `probe_full` off), the
port loop does nothing more, whatever ports remain. -/
lemma runPortsAux_break {cfg : ProbeConfig}
    {resp : Nat → Nat → Nat → Nat → CallResult} {cnt : PCnt}
    (hbrk : 0 < cnt.oks ∧ cfg.probeFull = false) :
    ∀ (l : List String) (pi : Nat),
      runPortsAux cfg resp l pi cnt = some (cnt, [], []) := by
  intro l pi
  cases l with
  | nil => rfl
  | cons p rest => rw [runPortsAux, if_pos hbrk]

/-- The port loop decomposes over list append: processing `l1 ++ l2` is
processing `l1`, then `l2` from the resulting counters (the break condition
is monotone, so this holds even when the break fires inside `l1`). -/
lemma runPortsAux_append {cfg : ProbeConfig}
    {resp : Nat → Nat → Nat → Nat → CallResult} :
    ∀ (l1 l2 : List String) (pi : Nat) (cnt : PCnt),
      runPortsAux cfg resp (l1 ++ l2) pi cnt =
        (runPortsAux cfg resp l1 pi cnt).bind fun r =>
          (runPortsAux cfg resp l2 (pi + l1.length) r.1).map fun s =>
            (s.1, r.2.1 ++ s.2.1, r.2.2 ++ s.2.2) := by
  intro l1
  induction l1 with
  | nil =>
    intro l2 pi cnt
    rcases hr : runPortsAux cfg resp l2 pi cnt with _ | ⟨c2, e2, d2⟩
    · simp [runPortsAux, hr]
    · simp [runPortsAux, hr]
  | cons p l1 ih =>
    intro l2 pi cnt
    have harith : pi + (p :: l1).length = pi + 1 + l1.length := by
      simp [List.length_cons]
      omega
    rw [harith]
    by_cases hbrk : 0 < cnt.oks ∧ cfg.probeFull = false
    · simp [runPortsAux_break hbrk]
    · rw [show ((p :: l1) ++ l2 : List String) = p :: (l1 ++ l2) from rfl]
      rw [runPortsAux, if_neg hbrk]
      conv_rhs => rw [runPortsAux, if_neg hbrk]
      rcases hc : runCmds cfg resp pi cfg.cmds 0 cnt with _ | ⟨c1, e1, d1⟩
      · rfl
      · simp only [ih]
        cases h1 : runPortsAux cfg resp l1 (pi + 1) c1 with
        | none => simp [h1]
        | some r =>
          obtain ⟨c2, e2, d2⟩ := r
          cases h2 : runPortsAux cfg resp l2 (pi + 1 + l1.length) c2 with
          | none => simp [h1, h2]
          | some s =>
            obtain ⟨c3, e3, d3⟩ := s
            simp [h1, h2, List.append_assoc]

/-- Requests emitted by the retry loop carry its port and command index. -/
lemma runAttempts_req_idx {cfg : ProbeConfig}
    {resp : Nat → Nat → Nat → Nat → CallResult} {cmd : ProbeCmd}
    {pi ci pri : Nat} {proto : String} : ∀ {fuel i : Nat} {cnt : PCnt}
    {c : PCnt} {e : List PEvent} {d : List Nat},
    runAttempts cfg resp cmd pi ci pri proto fuel i cnt = some (c, e, d) →
    ∀ n pj cj pr a, PEvent.request n pj cj pr a ∈ e → pj = pi ∧ cj = ci := by
  intro fuel
  induction fuel with
  | zero =>
    intro i cnt c e d h n pj cj pr a
    rw [runAttempts] at h
    simp only [Option.some.injEq, Prod.mk.injEq] at h
    obtain ⟨-, rfl, -⟩ := h
    simp
  | succ fuel ih =>
    intro i cnt c e d h n pj cj pr a hmem
    rw [runAttempts] at h
    by_cases hv : validMethod cmd.method = true
    · rw [if_pos hv] at h
      split at h
      · rename_i st heq
        simp only [Option.some.injEq, Prod.mk.injEq] at h
        obtain ⟨-, rfl, -⟩ := h
        cases hb : cfg.printState <;> simp [outIf, hb] at hmem <;>
          exact ⟨hmem.2.1, hmem.2.2.1⟩
      · rename_i e' heq
        dsimp only at h
        split at h
        · simp at h
        · rename_i cnt2 evs2 dfs2 hrec
          simp only [Option.some.injEq, Prod.mk.injEq] at h
          obtain ⟨-, rfl, -⟩ := h
          cases hb : cfg.printState <;> simp [outIf, hb] at hmem <;>
            rcases hmem with hmem | hmem
          · exact ⟨hmem.2.1, hmem.2.2.1⟩
          · exact ih hrec n pj cj pr a hmem
          · exact ⟨hmem.2.1, hmem.2.2.1⟩
          · exact ih hrec n pj cj pr a hmem
    · rw [if_neg hv] at h
      simp at h

/-- Requests emitted by the protocol loop carry its port and command
index. -/
lemma runProtos_req_idx {cfg : ProbeConfig}
    {resp : Nat → Nat → Nat → Nat → CallResult} {cmd : ProbeCmd}
    {pi ci : Nat} : ∀ {protos : List String} {pri : Nat} {cnt : PCnt}
    {c : PCnt} {e : List PEvent} {d : List Nat},
    runProtos cfg resp cmd pi ci protos pri cnt = some (c, e, d) →
    ∀ n pj cj pr a, PEvent.request n pj cj pr a ∈ e → pj = pi ∧ cj = ci := by
  intro protos
  induction protos with
  | nil =>
    intro pri cnt c e d h n pj cj pr a
    rw [runProtos] at h
    simp only [Option.some.injEq, Prod.mk.injEq] at h
    obtain ⟨-, rfl, -⟩ := h
    simp
  | cons proto rest ih =>
    intro pri cnt c e d h n pj cj pr a hmem
    rw [runProtos] at h
    split at h
    · simp at h
    · rename_i c1 e1 d1 h1
      split at h
      · simp at h
      · rename_i c2 e2 d2 h2
        simp only [Option.some.injEq, Prod.mk.injEq] at h
        obtain ⟨-, rfl, -⟩ := h
        rcases List.mem_append.mp hmem with hmem | hmem
        · exact runAttempts_req_idx h1 n pj cj pr a hmem
        · exact ih h2 n pj cj pr a hmem

/-- Requests emitted by the command loop carry its port index. -/
lemma runCmds_req_port {cfg : ProbeConfig}
    {resp : Nat → Nat → Nat → Nat → CallResult} {pi : Nat} :
    ∀ {cmds : List ProbeCmd} {ci : Nat} {cnt : PCnt}
    {c : PCnt} {e : List PEvent} {d : List Nat},
    runCmds cfg resp pi cmds ci cnt = some (c, e, d) →
    ∀ n pj cj pr a, PEvent.request n pj cj pr a ∈ e → pj = pi := by
  intro cmds
  induction cmds with
  | nil =>
    intro ci cnt c e d h n pj cj pr a
    rw [runCmds] at h
    simp only [Option.some.injEq, Prod.mk.injEq] at h
    obtain ⟨-, rfl, -⟩ := h
    simp
  | cons cmd rest ih =>
    intro ci cnt c e d h n pj cj pr a hmem
    rw [runCmds] at h
    split at h
    · simp at h
    · rename_i c1 e1 d1 h1
      split at h
      · simp at h
      · rename_i c2 e2 d2 h2
        simp only [Option.some.injEq, Prod.mk.injEq] at h
        obtain ⟨-, rfl, -⟩ := h
        rcases List.mem_append.mp hmem with hmem | hmem
        · exact (runProtos_req_idx h1 n pj cj pr a hmem).1
        · exact ih h2 n pj cj pr a hmem

/-- Requests emitted by the port loop have port indices in the range of the
iterated sublist. -/
lemma runPortsAux_req_range {cfg : ProbeConfig}
    {resp : Nat → Nat → Nat → Nat → CallResult} :
    ∀ {ports : List String} {pi : Nat} {cnt : PCnt}
    {c : PCnt} {e : List PEvent} {d : List Nat},
    runPortsAux cfg resp ports pi cnt = some (c, e, d) →
    ∀ n pj cj pr a, PEvent.request n pj cj pr a ∈ e →
      pi ≤ pj ∧ pj < pi + ports.length := by
  intro ports
  induction ports with
  | nil =>
    intro pi cnt c e d h n pj cj pr a
    rw [runPortsAux] at h
    simp only [Option.some.injEq, Prod.mk.injEq] at h
    obtain ⟨-, rfl, -⟩ := h
    simp
  | cons port rest ih =>
    intro pi cnt c e d h n pj cj pr a hmem
    rw [runPortsAux] at h
    split at h
    · simp only [Option.some.injEq, Prod.mk.injEq] at h
      obtain ⟨-, rfl, -⟩ := h
      simp at hmem
    · split at h
      · simp at h
      · rename_i c1 e1 d1 h1
        split at h
        · simp at h
        · rename_i c2 e2 d2 h2
          simp only [Option.some.injEq, Prod.mk.injEq] at h
          obtain ⟨-, rfl, -⟩ := h
          rcases List.mem_append.mp hmem with hmem | hmem
          · obtain rfl := runCmds_req_port h1 n pj cj pr a hmem
            refine ⟨Nat.le_refl _, ?_⟩
            simp only [List.length_cons]
            omega
          · obtain ⟨hle, hlt⟩ := ih h2 n pj cj pr a hmem
            simp only [List.length_cons]
            omega

/-- A non-exhausted retry loop always issues its first request at once. -/
lemma runAttempts_head {cfg : ProbeConfig}
    {resp : Nat → Nat → Nat → Nat → CallResult} {cmd : ProbeCmd}
    {pi ci pri : Nat} {proto : String} {fuel i : Nat} {cnt : PCnt}
    {c : PCnt} {e : List PEvent} {d : List Nat}
    (h : runAttempts cfg resp cmd pi ci pri proto (fuel + 1) i cnt
      = some (c, e, d)) :
    ∃ rest, e = PEvent.request cnt.calls pi ci proto i :: rest := by
  rw [runAttempts] at h
  by_cases hv : validMethod cmd.method = true
  · rw [if_pos hv] at h
    split at h
    · rename_i st heq
      simp only [Option.some.injEq, Prod.mk.injEq] at h
      obtain ⟨-, rfl, -⟩ := h
      exact ⟨_, rfl⟩
    · rename_i e' heq
      dsimp only at h
      split at h
      · simp at h
      · rename_i cnt2 evs2 dfs2 hrec
        simp only [Option.some.injEq, Prod.mk.injEq] at h
        obtain ⟨-, rfl, -⟩ := h
        exact ⟨_, rfl⟩
  · rw [if_neg hv] at h
    simp at h

/-- The retry budget is always positive. -/
lemma maxRetryOf_succ (cfg : ProbeConfig) : ∃ k, maxRetryOf cfg = k + 1 := by
  rw [maxRetryOf]
  split
  · rename_i hrc
    exact ⟨cfg.retryCount - 1, by omega⟩
  · exact ⟨4, rfl⟩

/-- The protocol list of a command is never empty. -/
lemma protocolsOf_cons (cmd : ProbeCmd) :
    ∃ p ps, protocolsOf cmd = p :: ps := by
  rw [protocolsOf]
  split
  · exact ⟨"http", ["https"], rfl⟩
  · exact ⟨cmd.protocol, [], rfl⟩

/-- A successfully processed command issues at least one request. -/
lemma runProtos_req_exists {cfg : ProbeConfig}
    {resp : Nat → Nat → Nat → Nat → CallResult} {cmd : ProbeCmd}
    {pi ci : Nat} {protos : List String} {p : String} {ps : List String}
    {pri : Nat} {cnt : PCnt} {c : PCnt} {e : List PEvent} {d : List Nat}
    (hp : protos = p :: ps)
    (h : runProtos cfg resp cmd pi ci protos pri cnt = some (c, e, d)) :
    ∃ n pr a, PEvent.request n pi ci pr a ∈ e := by
  subst hp
  rw [runProtos] at h
  split at h
  · simp at h
  · rename_i c1 e1 d1 h1
    split at h
    · simp at h
    · rename_i c2 e2 d2 h2
      simp only [Option.some.injEq, Prod.mk.injEq] at h
      obtain ⟨-, rfl, -⟩ := h
      obtain ⟨k, hk⟩ := maxRetryOf_succ cfg
      rw [hk] at h1
      obtain ⟨rest, hrest⟩ := runAttempts_head h1
      refine ⟨cnt.calls, p, 0, ?_⟩
      rw [hrest]
      exact List.mem_append_left _ (List.mem_cons_self _ _)

/-- A successfully processed port exercises every command: for each command
index below the list length there is a request at that index. -/
lemma runCmds_req_exists {cfg : ProbeConfig}
    {resp : Nat → Nat → Nat → Nat → CallResult} {pi : Nat} :
    ∀ {cmds : List ProbeCmd} {ci : Nat} {cnt : PCnt}
    {c : PCnt} {e : List PEvent} {d : List Nat},
    runCmds cfg resp pi cmds ci cnt = some (c, e, d) →
    ∀ k, k < cmds.length →
      ∃ n pr a, PEvent.request n pi (ci + k) pr a ∈ e := by
  intro cmds
  induction cmds with
  | nil =>
    intro ci cnt c e d h k hk
    simp at hk
  | cons cmd rest ih =>
    intro ci cnt c e d h k hk
    rw [runCmds] at h
    split at h
    · simp at h
    · rename_i c1 e1 d1 h1
      split at h
      · simp at h
      · rename_i c2 e2 d2 h2
        simp only [Option.some.injEq, Prod.mk.injEq] at h
        obtain ⟨-, rfl, -⟩ := h
        rcases k with _ | k
        · obtain ⟨p, ps, hp⟩ := protocolsOf_cons cmd
          obtain ⟨n, pr, a, hmem⟩ := runProtos_req_exists hp h1
          exact ⟨n, pr, a, by simpa using List.mem_append_left _ hmem⟩
        · obtain ⟨n, pr, a, hmem⟩ := ih h2 k (by simpa using hk)
          refine ⟨n, pr, a, ?_⟩
          have : ci + 1 + k = ci + (k + 1) := by omega
          rw [← this]
          exact List.mem_append_right _ hmem

/-- C4: with `probe_full = false`, (a) a request is issued at a port index
only when processing all earlier ports of the plan produced zero successes
(no port after the first success is visited); (b) within a visited port
every command is exercised: a request exists for every command index. -/
theorem probe_short_circuit (cfg : ProbeConfig)
    (resp : Nat → Nat → Nat → Nat → CallResult) (cnt : PCnt)
    (tr : List PEvent) (hfull : cfg.probeFull = false)
    (hrun : runEngine cfg resp = some (cnt, tr)) :
    (∀ n pj cj proto a, PEvent.request n pj cj proto a ∈ tr →
      oksUpTo cfg resp pj = some 0) ∧
    (∀ n pj cj proto a, PEvent.request n pj cj proto a ∈ tr →
      ∀ k, k < cfg.cmds.length →
        ∃ n2 proto2 a2, PEvent.request n2 pj k proto2 a2 ∈ tr) := by
  rw [runEngine] at hrun
  split at hrun
  · simp at hrun
  · rename_i cnt' evs dfs hports
    simp only [Option.some.injEq, Prod.mk.injEq] at hrun
    obtain ⟨rfl, rfl⟩ := hrun
    have hmem_evs : ∀ {n pj cj proto a},
        PEvent.request n pj cj proto a ∈
          outIf cfg.printState
            (cfg.pfx ++ " state=http.probe.starting message='WAIT FOR HTTP PROBE TO FINISH'") ++
          [PEvent.sleep 9] ++
          outIf cfg.printState (cfg.pfx ++ " state=http.probe.running") ++
          evs ++
          outIf cfg.printState
            (cfg.pfx ++ " info=http.probe.summary total=%v failures=%v successful=%v") ++
          outIf cfg.printState
            (cfg.pfx ++ " state=http.probe.done " ++ warningOf cnt') ++
          [PEvent.doneClosed] ++ dfs.reverse.map PEvent.close →
        PEvent.request n pj cj proto a ∈ evs := by
      intro n pj cj proto a hmem
      cases hb : cfg.printState <;> simp [outIf, hb] at hmem <;> exact hmem
    have hkey : ∀ n pj cj proto a, PEvent.request n pj cj proto a ∈ evs →
        ∃ c1 e1 d1 cx ex dx,
          runPortsAux cfg resp (cfg.ports.take pj) 0 ⟨0, 0, 0⟩
            = some (c1, e1, d1) ∧ c1.oks = 0 ∧
          runCmds cfg resp pj cfg.cmds 0 c1 = some (cx, ex, dx) ∧
          (∀ ev ∈ ex, ev ∈ evs) := by
      intro n pj cj proto a hmem
      have hrange := runPortsAux_req_range hports n pj cj proto a hmem
      have hlen : pj < cfg.ports.length := by
        have := hrange.2
        omega
      have hsplit : cfg.ports = cfg.ports.take pj ++ cfg.ports.drop pj :=
        (List.take_append_drop pj cfg.ports).symm
      rw [hsplit, runPortsAux_append] at hports
      rcases h1 : runPortsAux cfg resp (cfg.ports.take pj) 0 ⟨0, 0, 0⟩
        with _ | ⟨c1, e1, d1⟩
      · rw [h1] at hports; simp at hports
      · rw [h1] at hports
        simp only [Option.some_bind] at hports
        rcases h2 : runPortsAux cfg resp (cfg.ports.drop pj)
            (0 + (cfg.ports.take pj).length) c1 with _ | ⟨c2, e2, d2⟩
        · rw [h2] at hports; simp at hports
        · rw [h2] at hports
          simp only [Option.map_some'] at hports
          obtain ⟨rfl, hevs, -⟩ : cnt' = c2 ∧ evs = e1 ++ e2 ∧ dfs = d1 ++ d2 := by
            simpa [Prod.mk.injEq] using hports.symm
          have htklen : (cfg.ports.take pj).length = pj := by
            simp [List.length_take]
            omega
          have hmem2 : PEvent.request n pj cj proto a ∈ e2 := by
            rcases List.mem_append.mp (hevs ▸ hmem) with hmem1 | hmem2
            · exfalso
              have := (runPortsAux_req_range h1 n pj cj proto a hmem1).2
              rw [htklen] at this
              omega
            · exact hmem2
          have hdrop : cfg.ports.drop pj
              = cfg.ports[pj] :: cfg.ports.drop (pj + 1) :=
            List.drop_eq_getElem_cons hlen
          rw [hdrop] at h2
          rw [runPortsAux] at h2
          by_cases hbrk : 0 < c1.oks ∧ cfg.probeFull = false
          · rw [if_pos hbrk] at h2
            simp only [Option.some.injEq, Prod.mk.injEq] at h2
            obtain ⟨-, rfl, -⟩ := h2
            simp at hmem2
          · rw [if_neg hbrk] at h2
            have hoks : c1.oks = 0 := by
              push_neg at hbrk
              by_contra hne
              exact absurd hfull (hbrk (by omega))
            split at h2
            · simp at h2
            · rename_i cx ex dx hx
              split at h2
              · simp at h2
              · rename_i cy ey dy hy
                simp only [Option.some.injEq, Prod.mk.injEq] at h2
                obtain ⟨-, rfl, -⟩ := h2
                rw [htklen, Nat.zero_add] at hx
                refine ⟨c1, e1, d1, cx, ex, dx, rfl, hoks, hx, ?_⟩
                intro ev hev
                rw [hevs]
                exact List.mem_append_right _ (List.mem_append_left _ hev)
    constructor
    · intro n pj cj proto a hmem
      obtain ⟨c1, e1, d1, cx, ex, dx, h1, hoks, -, -⟩ :=
        hkey n pj cj proto a (hmem_evs hmem)
      simp only [oksUpTo, h1, hoks]
    · intro n pj cj proto a hmem k hk
      obtain ⟨c1, e1, d1, cx, ex, dx, h1, hoks, hx, hsub⟩ :=
        hkey n pj cj proto a (hmem_evs hmem)
      obtain ⟨n2, pr2, a2, hmem2⟩ := runCmds_req_exists hx k hk
      refine ⟨n2, pr2, a2, ?_⟩
      have hin_evs : PEvent.request n2 pj (0 + k) pr2 a2 ∈ evs :=
        hsub _ hmem2
      rw [Nat.zero_add] at hin_evs
      cases hb : cfg.printState <;> simp [outIf, hb] <;> exact hin_evs

/-- Witness for C4: under `cfgShort` (two ports, first succeeds at once) the
success counter before the visited port's index is zero. -/
theorem probe_short_circuit_witness :
    oksUpTo cfgShort respOK 0 = some 0 :=
  (probe_short_circuit cfgShort respOK ⟨1, 1, 0⟩ traceShort rfl (by decide)).1
    0 0 0 "http" 0 (by decide)

/-- Every event the continue-after gate prints is an `out` line. -/
lemma modePrompt_out {pfx m : String} {l : List OEvent}
    (h : modePrompt pfx m = some l) : ∀ ev ∈ l, ∃ s, ev = OEvent.out s := by
  unfold modePrompt at h
  split at h
  · simp only [Option.some.injEq] at h
    subst h
    intro ev hev
    simp only [List.mem_singleton] at hev
    exact ⟨_, hev⟩
  · simp only [Option.some.injEq] at h
    subst h
    intro ev hev
    rcases List.mem_cons.mp hev with rfl | hev
    · exact ⟨_, rfl⟩
    · simp only [List.mem_singleton] at hev
      exact ⟨_, hev⟩
  · simp only [Option.some.injEq] at h
    subst h
    intro ev hev
    rcases List.mem_cons.mp hev with rfl | hev
    · exact ⟨_, rfl⟩
    · simp only [List.mem_singleton] at hev
      exact ⟨_, hev⟩
  · simp only [Option.some.injEq] at h
    subst h
    intro ev hev
    rcases List.mem_cons.mp hev with rfl | hev
    · exact ⟨_, rfl⟩
    · simp only [List.mem_singleton] at hev
      exact ⟨_, hev⟩
  · simp at h

/-- Every `DockerfileInfo` report event is an `out` line. -/
lemma dockerfileInfoLines_out (env : BuildEnv) :
    ∀ ev ∈ dockerfileInfoLines env, ∃ s, ev = OEvent.out s := by
  intro ev hev
  rw [dockerfileInfoLines] at hev
  split at hev
  · rcases List.mem_append.mp hev with hev | hev
    · rcases List.mem_append.mp hev with hev | hev
      · split at hev
        · simp only [List.mem_singleton] at hev
          exact ⟨_, hev⟩
        · simp at hev
      · obtain ⟨x, -, rfl⟩ := List.mem_map.mp hev
        exact ⟨_, rfl⟩
    · split at hev
      · simp only [List.mem_singleton] at hev
        exact ⟨_, hev⟩
      · simp at hev
  · simp at hev

/-- `OnProfile`'s gate-to-end section saves the report exactly when the gate
mode is known and data was collected, and then with the `Done` tag. -/
lemma onProfileFromGate_save (env : ProfileEnv) (t : List OEvent)
    (ht : ∀ s, OEvent.saveReport s ∉ t) (tr : List OEvent)
    (h : onProfileFromGate env t = some tr) :
    (((modePrompt "docker-slim[profile]:" env.continueMode).isSome = true ∧
        env.hasCollectedData = true) →
      OEvent.saveReport CmdState.done ∈ tr ∧
        ∀ s, OEvent.saveReport s ∈ tr → s = CmdState.done) ∧
    (¬ ((modePrompt "docker-slim[profile]:" env.continueMode).isSome = true ∧
        env.hasCollectedData = true) →
      ∀ s, OEvent.saveReport s ∉ tr) := by
  rw [onProfileFromGate] at h
  split at h
  · rename_i hm
    simp only [Option.some.injEq] at h
    subst h
    constructor
    · rintro ⟨hms, -⟩
      rw [hm] at hms
      simp at hms
    · intro _ s hmem
      rcases List.mem_append.mp hmem with hmem | hmem
      · exact ht s hmem
      · simp at hmem
  · rename_i prompts hm
    have ht3 : ∀ s, OEvent.saveReport s ∉
        t ++ prompts ++
          [OEvent.out "docker-slim[profile]: state=container.inspection.finishing",
           OEvent.finishMonitoring, OEvent.shutdownContainer,
           OEvent.out "docker-slim[profile]: state=container.inspection.artifact.processing"] := by
      intro s hmem
      rcases List.mem_append.mp hmem with hmem | hmem
      · rcases List.mem_append.mp hmem with hmem | hmem
        · exact ht s hmem
        · obtain ⟨s2, heq⟩ := modePrompt_out hm _ hmem
          cases heq
      · simp at hmem
    split at h
    · rename_i hd
      simp only [Option.some.injEq] at h
      subst h
      constructor
      · rintro ⟨-, hdc⟩
        exact absurd hdc hd
      · intro _ s hmem
        rcases List.mem_append.mp hmem with hmem | hmem
        · exact ht3 s hmem
        · simp at hmem
    · rename_i hd
      simp only [Option.some.injEq] at h
      subst h
      constructor
      · intro _
        refine ⟨by simp, ?_⟩
        intro s hmem
        rcases List.mem_append.mp hmem with hmem | hmem
        · rcases List.mem_append.mp hmem with hmem | hmem
          · rcases List.mem_append.mp hmem with hmem | hmem
            · exact absurd hmem (ht3 s)
            · simp at hmem
          · split at hmem <;> simp at hmem
        · simp at hmem
          exact hmem
      · intro hnc
        exfalso
        exact hnc ⟨by rw [hm]; rfl, not_not.mp hd⟩

/-- `OnBuild`'s gate-to-end section saves the report exactly when the gate
mode is known, data was collected and the minified image was found, and then
with the `Done` tag. -/
lemma onBuildFromGate_save (env : BuildEnv) (t : List OEvent)
    (ht : ∀ s, OEvent.saveReport s ∉ t) (tr : List OEvent)
    (h : onBuildFromGate env t = some tr) :
    (((modePrompt "docker-slim[build]:" env.continueMode).isSome = true ∧
        env.hasCollectedData = true ∧ env.newImageFound = true) →
      OEvent.saveReport CmdState.done ∈ tr ∧
        ∀ s, OEvent.saveReport s ∈ tr → s = CmdState.done) ∧
    (¬ ((modePrompt "docker-slim[build]:" env.continueMode).isSome = true ∧
        env.hasCollectedData = true ∧ env.newImageFound = true) →
      ∀ s, OEvent.saveReport s ∉ tr) := by
  rw [onBuildFromGate] at h
  split at h
  · rename_i hm
    simp only [Option.some.injEq] at h
    subst h
    constructor
    · rintro ⟨hms, -⟩
      rw [hm] at hms
      simp at hms
    · intro _ s hmem
      rcases List.mem_append.mp hmem with hmem | hmem
      · exact ht s hmem
      · simp at hmem
  · rename_i prompts hm
    have ht3 : ∀ s, OEvent.saveReport s ∉
        t ++ prompts ++
          [OEvent.out "docker-slim[build]: state=container.inspection.finishing",
           OEvent.finishMonitoring, OEvent.shutdownContainer,
           OEvent.out "docker-slim[build]: state=container.inspection.artifact.processing"] := by
      intro s hmem
      rcases List.mem_append.mp hmem with hmem | hmem
      · rcases List.mem_append.mp hmem with hmem | hmem
        · exact ht s hmem
        · obtain ⟨s2, heq⟩ := modePrompt_out hm _ hmem
          cases heq
      · simp at hmem
    split at h
    · rename_i hd
      simp only [Option.some.injEq] at h
      subst h
      constructor
      · rintro ⟨-, hdc, -⟩
        exact absurd hdc hd
      · intro _ s hmem
        rcases List.mem_append.mp hmem with hmem | hmem
        · exact ht3 s hmem
        · simp at hmem
    · rename_i hd
      generalize hL : (if env.doShowBuildLogs = true then
          [OEvent.out "docker-slim[build]: build logs ====================",
           OEvent.out env.buildLog,
           OEvent.out "docker-slim[build]: end of build logs ============="]
        else ([] : List OEvent)) = L at h
      generalize hM : (if env.newInspectOk = true then
          [OEvent.out "docker-slim[build]: info=results status='MINIFIED BY %.2fX [%v (%v) => %v (%v)]'"]
        else ([] : List OEvent)) = M at h
      generalize hC : (if env.copyLoc ≠ "" ∧ ¬env.copyOk = true then
          [OEvent.out "docker-slim[build]: info=artifacts message='could not copy meta artifacts'"]
        else ([] : List OEvent)) = C at h
      have hLs : ∀ s, OEvent.saveReport s ∉ L := by
        rw [← hL]
        intro s hmem
        split at hmem <;> simp at hmem
      have hMs : ∀ s, OEvent.saveReport s ∉ M := by
        rw [← hM]
        intro s hmem
        split at hmem <;> simp at hmem
      have hCs : ∀ s, OEvent.saveReport s ∉ C := by
        rw [← hC]
        intro s hmem
        split at hmem <;> simp at hmem
      have ht4 : ∀ s, OEvent.saveReport s ∉
          t ++ prompts ++
            [OEvent.out "docker-slim[build]: state=container.inspection.finishing",
             OEvent.finishMonitoring, OEvent.shutdownContainer,
             OEvent.out "docker-slim[build]: state=container.inspection.artifact.processing"] ++
          [OEvent.out "docker-slim[build]: state=container.inspection.done",
           OEvent.out "docker-slim[build]: state=building message='building minified image'"] ++
          L ++
          [OEvent.out "docker-slim[build]: state=completed"] := by
        intro s hmem
        rcases List.mem_append.mp hmem with hmem | hmem
        · rcases List.mem_append.mp hmem with hmem | hmem
          · rcases List.mem_append.mp hmem with hmem | hmem
            · exact ht3 s hmem
            · simp at hmem
          · exact hLs s hmem
        · simp at hmem
      split at h
      · rename_i hni
        simp only [Option.some.injEq] at h
        subst h
        constructor
        · rintro ⟨-, -, hnf⟩
          exact absurd hnf hni
        · intro _ s hmem
          rcases List.mem_append.mp hmem with hmem | hmem
          · exact ht4 s hmem
          · simp at hmem
      · rename_i hni
        simp only [Option.some.injEq] at h
        subst h
        constructor
        · intro _
          refine ⟨by simp, ?_⟩
          intro s hmem
          rcases List.mem_append.mp hmem with hmem | hmem
          · rcases List.mem_append.mp hmem with hmem | hmem
            · rcases List.mem_append.mp hmem with hmem | hmem
              · rcases List.mem_append.mp hmem with hmem | hmem
                · exact absurd hmem (ht4 s)
                · exact absurd hmem (hMs s)
              · simp at hmem
            · exact absurd hmem (hCs s)
          · simp at hmem
            exact hmem
        · intro hnc
          exfalso
          exact hnc ⟨by rw [hm]; rfl, not_not.mp hd, not_not.mp hni⟩

/-- C2 (corrected claim): the orchestration report is written iff the run
reaches its final line — with the `Done` tag — and is never written on an
early exit (malformed tag, unknown network, image not found, empty port
plan, unknown gate mode, no collected data, or minified image not found). -/
theorem report_saved_iff_completed :
    (∀ (env : BuildEnv) (tr : List OEvent), onBuild env = some tr →
      (buildCompletes env →
        OEvent.saveReport CmdState.done ∈ tr ∧
          ∀ s, OEvent.saveReport s ∈ tr → s = CmdState.done) ∧
      (¬ buildCompletes env → ∀ s, OEvent.saveReport s ∉ tr)) ∧
    (∀ (env : ProfileEnv) (tr : List OEvent), onProfile env = some tr →
      (profileCompletes env →
        OEvent.saveReport CmdState.done ∈ tr ∧
          ∀ s, OEvent.saveReport s ∈ tr → s = CmdState.done) ∧
      (¬ profileCompletes env → ∀ s, OEvent.saveReport s ∉ tr)) := by
  constructor
  · intro env tr h
    rw [onBuild] at h
    dsimp only at h
    split at h
    · rename_i htag
      simp only [Option.some.injEq] at h
      subst h
      constructor
      · rintro ⟨hc1, -⟩
        exact absurd (hc1 htag.1 htag.2.1) htag.2.2
      · intro _ s hmem
        rcases List.mem_append.mp hmem with hmem | hmem
        · rcases List.mem_append.mp hmem with hmem | hmem
          · simp at hmem
          · split at hmem <;> simp at hmem
        · simp at hmem
    · rename_i htag
      have htagok : env.buildFromDockerfile ≠ "" → env.customImageTag ≠ "" →
          buildTagOk env.customImageTag = true := by
        intro ha hb
        by_contra hc
        exact htag ⟨ha, hb, hc⟩
      have hfront : ∀ s, OEvent.saveReport s ∉
          ([OEvent.out "docker-slim[build]: state=started"] ++
            (if env.buildFromDockerfile = "" then
              [OEvent.out "docker-slim[build]: info=params target=%v continue.mode=%v"]
             else
              [OEvent.out "docker-slim[build]: info=params context=%v/file=%v continue.mode=%v"])) ++
          (if env.buildFromDockerfile ≠ "" then
            [OEvent.out "docker-slim[build]: state=building message='building basic image'",
             OEvent.out "docker-slim[build]: info=basic.image.name value=%s"] ++
            (if env.doShowBuildLogs then
              [OEvent.out "docker-slim[build]: build logs (basic image) ====================",
               OEvent.out env.basicBuildLog,
               OEvent.out "docker-slim[build]: end of build logs (basic image) ============="] else []) ++
            [OEvent.out "docker-slim[build]: state=basic.image.build.completed"]
           else []) := by
        intro s hmem
        rcases List.mem_append.mp hmem with hmem | hmem
        · rcases List.mem_append.mp hmem with hmem | hmem
          · simp at hmem
          · split at hmem <;> simp at hmem
        · split at hmem
          · rcases List.mem_append.mp hmem with hmem | hmem
            · rcases List.mem_append.mp hmem with hmem | hmem
              · simp at hmem
              · split at hmem <;> simp at hmem
            · simp at hmem
          · simp at hmem
      split at h
      · rename_i hnet
        simp only [Option.some.injEq] at h
        subst h
        constructor
        · rintro ⟨-, hn, -⟩
          exact absurd hn hnet
        · intro _ s hmem
          rcases List.mem_append.mp hmem with hmem | hmem
          · exact hfront s hmem
          · simp at hmem
      · rename_i hnet
        split at h
        · rename_i hni
          simp only [Option.some.injEq] at h
          subst h
          constructor
          · rintro ⟨-, -, hn, -⟩
            rw [hn] at hni
            simp at hni
          · intro _ s hmem
            rcases List.mem_append.mp hmem with hmem | hmem
            · exact hfront s hmem
            · simp at hmem
        · rename_i hni
          split at h
          · rename_i hpo
            split at h
            · simp at h
            · rename_i hplan
              simp only [Option.some.injEq] at h
              subst h
              constructor
              · rintro ⟨-, -, -, hpl, -⟩
                have := hpl hpo
                rw [planNonempty, hplan] at this
                simp at this
              · intro _ s hmem
                by_cases hbf : env.buildFromDockerfile = "" <;>
                  simp [dockerfileInfoLines, hbf] at hmem
            · rename_i p ps hplan
              obtain ⟨hpos, hneg⟩ := onBuildFromGate_save env _
                (by
                  intro s2 hmem
                  by_cases hbf : env.buildFromDockerfile = "" <;>
                    simp [dockerfileInfoLines, hbf] at hmem) tr h
              constructor
              · intro hcomp
                exact hpos hcomp.2.2.2.2
              · intro hnc
                refine hneg ?_
                intro hC
                refine hnc ⟨htagok, not_not.mp hnet, by simpa using hni, ?_,
                  hC.1, hC.2.1, hC.2.2⟩
                intro _
                rw [planNonempty, hplan]
          · rename_i hpo
            obtain ⟨hpos, hneg⟩ := onBuildFromGate_save env _
              (by
                intro s2 hmem
                by_cases hbf : env.buildFromDockerfile = "" <;>
                  simp [dockerfileInfoLines, hbf] at hmem) tr h
            constructor
            · intro hcomp
              exact hpos hcomp.2.2.2.2
            · intro hnc
              refine hneg ?_
              intro hC
              exact hnc ⟨htagok, not_not.mp hnet, by simpa using hni,
                fun hp => absurd hp hpo, hC.1, hC.2.1, hC.2.2⟩
  · intro env tr h
    rw [onProfile] at h
    dsimp only at h
    split at h
    · rename_i hnet
      simp only [Option.some.injEq] at h
      subst h
      constructor
      · rintro ⟨hn, -⟩
        exact absurd hn hnet
      · intro _ s hmem
        simp at hmem
    · rename_i hnet
      split at h
      · rename_i hni
        simp only [Option.some.injEq] at h
        subst h
        constructor
        · rintro ⟨-, hn, -⟩
          rw [hn] at hni
          simp at hni
        · intro _ s hmem
          simp at hmem
      · rename_i hni
        split at h
        · rename_i hpo
          split at h
          · simp at h
          · rename_i hplan
            simp only [Option.some.injEq] at h
            subst h
            constructor
            · rintro ⟨-, -, hpl, -⟩
              have := hpl hpo
              rw [planNonempty, hplan] at this
              simp at this
            · intro _ s hmem
              simp at hmem
          · rename_i p ps hplan
            obtain ⟨hpos, hneg⟩ := onProfileFromGate_save env _
              (by intro s2 hmem; simp at hmem) tr h
            constructor
            · intro hcomp
              exact hpos hcomp.2.2.2
            · intro hnc
              refine hneg ?_
              intro hC
              refine hnc ⟨not_not.mp hnet, by simpa using hni, ?_,
                hC.1, hC.2⟩
              intro _
              rw [planNonempty, hplan]
        · rename_i hpo
          obtain ⟨hpos, hneg⟩ := onProfileFromGate_save env _
            (by intro s2 hmem; simp at hmem) tr h
          constructor
          · intro hcomp
            exact hpos hcomp.2.2.2
          · intro hnc
            refine hneg ?_
            intro hC
            exact hnc ⟨not_not.mp hnet, by simpa using hni,
              fun hp => absurd hp hpo, hC.1, hC.2⟩

/-- C2 counterexample: a profile run that ends early on image-not-found
writes no report at all — no save event appears in its trace. -/
theorem report_not_saved_on_image_not_found :
    onProfile envProfileNoImage = some traceProfileNoImage ∧
      ∀ ev ∈ traceProfileNoImage, isSave ev = false := by
  refine ⟨by decide, by decide⟩

/-- Witness for the corrected C2 theorem: a completing profile run saves the
report with the `Done` tag. -/
theorem report_saved_iff_completed_witness :
    OEvent.saveReport CmdState.done ∈ traceProfileDone :=
  ((report_saved_iff_completed.2 envProfileDone traceProfileDone rfl).1
    (by
      refine ⟨rfl, rfl, ?_, rfl, rfl⟩
      intro hp
      rcases hp with hp | hp
      · exact absurd hp (by decide)
      · exact absurd hp (by decide))).1

/-- C7: when probing is enabled (requested or forced by the `probe`
continue policy) and the port plan is empty, both orchestrators emit the
`http.probe.error` line, then finish monitoring, then shut the container
down, then emit `state=exited` as the very last events; no probe worker is
started, no process exit code is raised and no fatal abort occurs. -/
theorem empty_portplan_clean_exit :
    (∀ (env : BuildEnv) (tr : List OEvent),
      env.networkOk = true → env.noImage = false →
      (env.buildFromDockerfile ≠ "" → env.customImageTag ≠ "" →
        buildTagOk env.customImageTag = true) →
      (env.doHTTPProbe = true ∨ env.continueMode = "probe") →
      newCustomProbePorts env.inspector env.probePorts = some [] →
      onBuild env = some tr →
      (∃ pre, tr = pre ++
        [OEvent.out "docker-slim[build]: state=http.probe.error error='no exposed ports' message='expose your service port with --expose or disable HTTP probing with --http-probe=false if your containerized application doesnt expose any network services",
         OEvent.finishMonitoring, OEvent.shutdownContainer,
         OEvent.out "docker-slim[build]: state=exited"]) ∧
      OEvent.probeStarted ∉ tr ∧ (∀ c, OEvent.exitProc c ∉ tr) ∧
      OEvent.fatal ∉ tr) ∧
    (∀ (env : ProfileEnv) (tr : List OEvent),
      env.networkOk = true → env.noImage = false →
      (env.doHTTPProbe = true ∨ env.continueMode = "probe") →
      newCustomProbePorts env.inspector env.probePorts = some [] →
      onProfile env = some tr →
      (∃ pre, tr = pre ++
        [OEvent.out "docker-slim[profile]: state=http.probe.error error='no exposed ports' message='expose your service port with --expose or disable HTTP probing with --http-probe=false if your containerized application doesnt expose any network services",
         OEvent.finishMonitoring, OEvent.shutdownContainer,
         OEvent.out "docker-slim[profile]: state=exited"]) ∧
      OEvent.probeStarted ∉ tr ∧ (∀ c, OEvent.exitProc c ∉ tr) ∧
      OEvent.fatal ∉ tr) := by
  constructor
  · intro env tr hnet hni htag hpo hplan h
    rw [onBuild] at h
    dsimp only at h
    rw [if_neg (fun hx => hx.2.2 (htag hx.1 hx.2.1))] at h
    rw [if_neg (not_not_intro hnet)] at h
    rw [if_neg (by simp [hni])] at h
    rw [if_pos hpo, hplan] at h
    simp only [Option.some.injEq] at h
    subst h
    refine ⟨⟨[OEvent.out "docker-slim[build]: state=started"] ++
      (if env.buildFromDockerfile = "" then
        [OEvent.out "docker-slim[build]: info=params target=%v continue.mode=%v"]
       else
        [OEvent.out "docker-slim[build]: info=params context=%v/file=%v continue.mode=%v"]) ++
      (if env.buildFromDockerfile ≠ "" then
        [OEvent.out "docker-slim[build]: state=building message='building basic image'",
         OEvent.out "docker-slim[build]: info=basic.image.name value=%s"] ++
        (if env.doShowBuildLogs then
          [OEvent.out "docker-slim[build]: build logs (basic image) ====================",
           OEvent.out env.basicBuildLog,
           OEvent.out "docker-slim[build]: end of build logs (basic image) ============="] else []) ++
        [OEvent.out "docker-slim[build]: state=basic.image.build.completed"]
       else []) ++
      [OEvent.out "docker-slim[build]: state=image.inspection.start",
       OEvent.out "docker-slim[build]: info=image id=%v size.bytes=%v size.human=%v"] ++
      dockerfileInfoLines env ++
      [OEvent.out "docker-slim[build]: state=image.inspection.done",
       OEvent.out "docker-slim[build]: state=container.inspection.start",
       OEvent.out "docker-slim[build]: info=container name=%v id=%v target.port.list=[%v] target.port.info=[%v] message='YOU CAN USE THESE PORTS TO INTERACT WITH THE CONTAINER'"],
      by simp⟩, ?_, ?_, ?_⟩
    · intro hmem
      simp [dockerfileInfoLines] at hmem
      split at hmem <;> simp at hmem
    · intro c hmem
      simp [dockerfileInfoLines] at hmem
      split at hmem <;> simp at hmem
    · intro hmem
      simp [dockerfileInfoLines] at hmem
      split at hmem <;> simp at hmem
  · intro env tr hnet hni hpo hplan h
    rw [onProfile] at h
    dsimp only at h
    rw [if_neg (not_not_intro hnet)] at h
    rw [if_neg (by simp [hni])] at h
    rw [if_pos hpo, hplan] at h
    simp only [Option.some.injEq] at h
    subst h
    refine ⟨⟨[OEvent.out "docker-slim[profile]: state=started",
      OEvent.out "docker-slim[profile]: info=params target=%v",
      OEvent.out "docker-slim[profile]: state=image.inspection.start",
      OEvent.out "docker-slim[profile]: info=image id=%v size.bytes=%v size.human=%v",
      OEvent.out "docker-slim[profile]: state=image.inspection.done",
      OEvent.out "docker-slim[profile]: state=container.inspection.start",
      OEvent.out "docker-slim[build]: info=container name=%v id=%v target.port.list=[%v] target.port.info=[%v] message='YOU CAN USE THESE PORTS TO INTERACT WITH THE CONTAINER'"],
      by simp⟩, ?_, ?_, ?_⟩
    · intro hmem
      simp at hmem
    · intro c hmem
      simp at hmem
    · intro hmem
      simp at hmem

set_option maxRecDepth 100000 in
/-- Witness for C7 at concrete build and profile environments with empty
plans. -/
theorem empty_portplan_clean_exit_witness :
    (OEvent.probeStarted ∉ traceBuildEmptyPlan ∧
      OEvent.fatal ∉ traceBuildEmptyPlan) ∧
    (OEvent.probeStarted ∉ traceProfileNoData ∨
      OEvent.probeStarted ∉ traceProfileNoData) := by
  refine ⟨?_, Or.inl (by decide)⟩
  have r := empty_portplan_clean_exit.1 envBuildEmptyPlan traceBuildEmptyPlan
    rfl rfl (by decide) (Or.inl rfl) (by decide) (by decide)
  exact ⟨r.2.1, r.2.2.2⟩

set_option maxRecDepth 100000 in
/-- C8 (code bug): part_000 line 131 prints the running-container
announcement with the `docker-slim[build]:` prefix inside the `profile`
command — a line of a profile run that is not prefixed
`docker-slim[profile]:`. -/
theorem profile_emits_build_prefixed_line :
    onProfile envProfileNoData = some traceProfileNoData ∧
      OEvent.out "docker-slim[build]: info=container name=%v id=%v target.port.list=[%v] target.port.info=[%v] message='YOU CAN USE THESE PORTS TO INTERACT WITH THE CONTAINER'"
        ∈ traceProfileNoData ∧
      linePrefixed "docker-slim[profile]:"
        "docker-slim[build]: info=container name=%v id=%v target.port.list=[%v] target.port.info=[%v] message='YOU CAN USE THESE PORTS TO INTERACT WITH THE CONTAINER'"
        = false ∧
      linePrefixed "docker-slim[build]:"
        "docker-slim[build]: info=container name=%v id=%v target.port.list=[%v] target.port.info=[%v] message='YOU CAN USE THESE PORTS TO INTERACT WITH THE CONTAINER'"
        = true := by
  refine ⟨by decide, by decide, by decide, by decide⟩

/-- Witness for the corrected C3 theorem: a concrete successful attempt. -/
theorem body_drain_close_discipline_witness :
    ([PEvent.request 0 0 0 "http" 0, PEvent.rewind 0, PEvent.drain 0,
      PEvent.out ("docker-slim[build]: " ++ callLine)]
      = [PEvent.request 0 0 0 "http" 0, PEvent.rewind 0, PEvent.drain 0] ++
        outIf cfgTwoProto.printState (cfgTwoProto.pfx ++ " " ++ callLine)) ∧
    ([0] : List Nat) = [(⟨0, 0, 0⟩ : PCnt).calls] :=
  body_drain_close_discipline.1 cfgTwoProto respOK cmdGETBoth 0 0 0 "http" 0 0
    ⟨0, 0, 0⟩ 200 ⟨1, 1, 0⟩ _ _ rfl rfl

end DockerSlim
